import Mathlib

/-!
# placer: a placeholder-image HTTP service

A shallow embedding of `main.go`.  The handlers (`sendError`,
`serveMainPageRequest`, `getInputValue`, `generateImage`,
`serveImageRequest`) and the route table built in `main` are translated
from the source.  The Go library functions they call (`strconv.Atoi`,
`strconv.Itoa`, `json.Marshal`, `image.NewRGBA`, `draw.Draw`, `jpeg.Encode`,
the `http.ResponseWriter` and the gorilla/mux router) are modelled next to
them, each with a note on what is covered.

Go strings are Lean `String`s (valid UTF-8), Go `int` is `Int` (the parser
and the buffer length of `image.NewRGBA` check the 64-bit range explicitly),
bytes are natural numbers below 256.  A call that panics is an outcome of its
own: `generateImage` can panic in `image.NewRGBA`, and a handler that panics
sends no response.
-/

set_option autoImplicit false

namespace Placer

/-! ## Errors -/

deriving instance DecidableEq for Except

/-- A Go `error` value: either built by `errors.New`, or a `*strconv.NumError`
recording the failing function, the input and the underlying error. -/
inductive Error where
  | errorString (s : String)
  | numError (Func : String) (Num : String) (Err : Error)
  deriving DecidableEq, Repr

/-- The hexadecimal digit of a value below 16, lower case. -/
def lowerhex (n : Nat) : Char :=
  if n < 10 then Char.ofNat (48 + n) else Char.ofNat (87 + n)

/-- The four hexadecimal digits of `\uXXXX`. -/
def hex4 (n : Nat) : List Char :=
  [lowerhex (n / 4096 % 16), lowerhex (n / 256 % 16), lowerhex (n / 16 % 16), lowerhex (n % 16)]

/-- The function `strconv.IsPrint` on the runes up to U+00FF: the ASCII range
from the blank to the tilde, and U+00A1 to U+00FF without the soft hyphen.
The runes above U+00FF are taken as printable (the Unicode tables are not
modelled). -/
def isPrint (c : Char) : Bool :=
  if c.toNat ≤ 0xFF then
    decide ((0x20 ≤ c.toNat ∧ c.toNat ≤ 0x7E) ∨ (0xA1 ≤ c.toNat ∧ c.toNat ≠ 0xAD))
  else true

/-- One rune as `strconv.Quote` writes it.  The quote and the backslash are
backslashed, a printable rune is kept, the control characters get their
escapes, and any other rune is written `\uXXXX`. -/
def quoteRune (c : Char) : List Char :=
  if c = '\"' ∨ c = '\\' then ['\\', c]
  else if isPrint c then [c]
  else if c.toNat = 7 then ['\\', 'a']
  else if c.toNat = 8 then ['\\', 'b']
  else if c.toNat = 12 then ['\\', 'f']
  else if c = '\n' then ['\\', 'n']
  else if c = '\r' then ['\\', 'r']
  else if c = '\t' then ['\\', 't']
  else if c.toNat = 11 then ['\\', 'v']
  else if c.toNat < 32 ∨ c.toNat = 127 then
    ['\\', 'x', lowerhex (c.toNat / 16), lowerhex (c.toNat % 16)]
  else '\\' :: 'u' :: hex4 c.toNat

/-- The Go function `strconv.Quote`. -/
def Quote (s : String) : String :=
  String.mk ('\"' :: (s.data.flatMap quoteRune ++ ['\"']))

/-- The method `Error()` of a Go error: its message. -/
def Error.message : Error → String
  | .errorString s => s
  | .numError f n e => "strconv." ++ f ++ ": parsing " ++ Quote n ++ ": " ++ e.message

/-- The Go function `errors.New`. -/
def errorsNew (s : String) : Error := .errorString s

def error404 : Error := errorsNew "page not found"

def errorInvalidDimension : Error := errorsNew "width and height values must be positive"

/-! ## strconv -/

/-- The error `strconv.ErrSyntax`. -/
def ErrInvalid : Error := errorsNew "invalid syntax"

/-- The error `strconv.ErrRange`. -/
def ErrRange : Error := errorsNew "value out of range"

/-- The size in bits of a Go `int` (a 64-bit target). -/
def intSize : Nat := 64

/-- The largest `uint64`. -/
def maxUint64 : Nat := 2 ^ 64 - 1

/-- The digit loop of `strconv.ParseUint` for base 10 and 64 bits, started with
the accumulator `n`.  `none` is a syntax error, `some none` a range error
(reported as soon as the accumulator overflows, before later bytes are
looked at), `some (some v)` the value. -/
def parseUintLoop : List Char → Nat → Option (Option Nat)
  | [], n => some (some n)
  | c :: cs, n =>
    if c.toNat < 48 ∨ 57 < c.toNat then none
    else
      let d := c.toNat - 48
      if n ≥ maxUint64 / 10 + 1 then some none
      else
        let n10 := n * 10
        let n1 := (n10 + d) % 2 ^ 64
        if n1 < n10 ∨ n1 > maxUint64 then some none
        else parseUintLoop cs n1

/-- The Go function `strconv.ParseUint(s, 10, 64)`, without the error
wrapping: the empty string is a syntax error. -/
def parseUint (s : List Char) : Option (Option Nat) :=
  if s = [] then none else parseUintLoop s 0

/-- The Go function `strconv.Atoi`: `strconv.ParseInt(s, 10, 0)` whose errors
name `Atoi`.  An optional sign, then decimal digits; a value outside the
`int` range is a range error. -/
def Atoi (s : String) : Except Error Int :=
  match s.data with
  | [] => .error (.numError "Atoi" s ErrInvalid)
  | c :: cs =>
    let neg := c = '-'
    let body := if c = '+' ∨ c = '-' then cs else c :: cs
    match parseUint body with
    | none => .error (.numError "Atoi" s ErrInvalid)
    | some r =>
      let un := r.getD maxUint64
      let cutoff := 2 ^ (intSize - 1)
      if ¬ neg ∧ un ≥ cutoff then .error (.numError "Atoi" s ErrRange)
      else if neg ∧ un > cutoff then .error (.numError "Atoi" s ErrRange)
      else if neg then .ok (-(un : Int)) else .ok (un : Int)

/-- The decimal value of a string of digits, read most significant digit
first: the number the specification means by a captured width or height. -/
def decimalValue (s : String) : Nat :=
  s.data.foldl (fun n c => 10 * n + (c.toNat - 48)) 0

/-- Digits of a natural number, most significant first. -/
def itoaDigits (n : Nat) : List Char := Nat.toDigits 10 n

/-- The Go function `strconv.Itoa`. -/
def Itoa (i : Int) : String :=
  if i < 0 then String.mk ('-' :: itoaDigits i.natAbs) else String.mk (itoaDigits i.natAbs)

/-! ## Request variables -/

/-- A Go `map[string]string`, as the list of its entries. -/
abbrev Vars := List (String × String)

/-- The map index expression `m[k]` with its presence flag. -/
def Vars.get (m : Vars) (k : String) : Option String :=
  (m.find? fun e => e.1 = k).map fun e => e.2

/-- The function `getInputValue` of `main.go`: the integer stored under
`keyName`, `0` when the key is absent, the parse error when the stored string
is no `int`. -/
def getInputValue (requestVars : Vars) (keyName : String) : Except Error Int :=
  match requestVars.get keyName with
  | some v =>
    match Atoi v with
    | .error err => .error err
    | .ok value => .ok value
  | none => .ok 0

/-! ## image, image/color, image/draw -/

/-- The Go type `image.Point`. -/
structure Point where
  X : Int
  Y : Int
  deriving DecidableEq, Repr

/-- The Go type `image.Rectangle`: the points with `Min.X ≤ x < Max.X` and
`Min.Y ≤ y < Max.Y`. -/
structure Rectangle where
  Min : Point
  Max : Point
  deriving DecidableEq, Repr

/-- The zero point `image.ZP`. -/
def ZP : Point := ⟨0, 0⟩

/-- The zero rectangle `image.ZR`. -/
def ZR : Rectangle := ⟨ZP, ZP⟩

/-- The Go function `image.Rect`: the rectangle with the given corners, the
coordinates swapped where needed so that it is well formed. -/
def Rect (x0 y0 x1 y1 : Int) : Rectangle :=
  let xs := if x0 > x1 then (x1, x0) else (x0, x1)
  let ys := if y0 > y1 then (y1, y0) else (y0, y1)
  ⟨⟨xs.1, ys.1⟩, ⟨xs.2, ys.2⟩⟩

def Rectangle.Dx (r : Rectangle) : Int := r.Max.X - r.Min.X

def Rectangle.Dy (r : Rectangle) : Int := r.Max.Y - r.Min.Y

def Rectangle.Empty (r : Rectangle) : Bool :=
  decide (r.Min.X ≥ r.Max.X ∨ r.Min.Y ≥ r.Max.Y)

/-- The method `Rectangle.Intersect`. -/
def Rectangle.Intersect (r s : Rectangle) : Rectangle :=
  let minX := if r.Min.X < s.Min.X then s.Min.X else r.Min.X
  let minY := if r.Min.Y < s.Min.Y then s.Min.Y else r.Min.Y
  let maxX := if r.Max.X > s.Max.X then s.Max.X else r.Max.X
  let maxY := if r.Max.Y > s.Max.Y then s.Max.Y else r.Max.Y
  let r1 : Rectangle := ⟨⟨minX, minY⟩, ⟨maxX, maxY⟩⟩
  if r1.Empty then ZR else r1

/-- The method `Rectangle.Add`: the rectangle translated by `p`. -/
def Rectangle.Add (r : Rectangle) (p : Point) : Rectangle :=
  ⟨⟨r.Min.X + p.X, r.Min.Y + p.Y⟩, ⟨r.Max.X + p.X, r.Max.Y + p.Y⟩⟩

def Point.Sub (p q : Point) : Point := ⟨p.X - q.X, p.Y - q.Y⟩

/-- The method `Point.In`. -/
def Point.In (p : Point) (r : Rectangle) : Bool :=
  decide (r.Min.X ≤ p.X ∧ p.X < r.Max.X ∧ r.Min.Y ≤ p.Y ∧ p.Y < r.Max.Y)

/-- The Go type `color.RGBA`, four bytes. -/
structure Color where
  R : Nat
  G : Nat
  B : Nat
  A : Nat
  deriving DecidableEq, Repr

/-- The method `color.RGBA.RGBA`: the four channels widened to 16 bits. -/
def Color.RGBA (c : Color) : Nat × Nat × Nat × Nat :=
  (c.R ||| (c.R <<< 8), c.G ||| (c.G <<< 8), c.B ||| (c.B <<< 8), c.A ||| (c.A <<< 8))

/-- The Go type `image.RGBA`: the pixel bytes in rows of `Stride` bytes, four
bytes per pixel, and the bounds. -/
structure RGBA where
  Pix : List Nat
  Stride : Int
  Rect : Rectangle
  deriving DecidableEq, Repr

/-- The function `mul3NonNeg` of package `image`: the product of three `int`s,
or `-1` when one of them is negative or the product overflows: the high word
of either 64-bit multiplication is not zero, or the result does not fit an
`int`. -/
def mul3NonNeg (x y z : Int) : Int :=
  if x < 0 ∨ y < 0 ∨ z < 0 then -1
  else if x * y ≥ 2 ^ 64 then -1
  else if x * y * z ≥ 2 ^ 64 then -1
  else if x * y * z ≥ 2 ^ 63 then -1
  else x * y * z

/-- The Go function `image.NewRGBA`: a zeroed image with the given bounds, or
`none` when it panics because the buffer length `4 * Dx * Dy` is negative or
overflows an `int`.  The allocation of a buffer whose length fits an `int` is
taken to succeed. -/
def NewRGBA (r : Rectangle) : Option RGBA :=
  let totalLength := mul3NonNeg 4 r.Dx r.Dy
  if totalLength < 0 then none
  else some { Pix := List.replicate totalLength.toNat 0, Stride := 4 * r.Dx, Rect := r }

def RGBA.Bounds (p : RGBA) : Rectangle := p.Rect

/-- The method `RGBA.PixOffset`: the index in `Pix` of the first byte of the
pixel at `(x, y)`. -/
def RGBA.PixOffset (p : RGBA) (x y : Int) : Int :=
  (y - p.Rect.Min.Y) * p.Stride + (x - p.Rect.Min.X) * 4

/-- The method `RGBA.RGBAAt`: the pixel at `(x, y)`, the zero colour outside
the bounds; `none` where Go would index `Pix` out of range. -/
def RGBA.RGBAAt (p : RGBA) (x y : Int) : Option Color :=
  if ¬ (Point.In ⟨x, y⟩ p.Rect) then some ⟨0, 0, 0, 0⟩
  else
    let i := (p.PixOffset x y).toNat
    match p.Pix[i]?, p.Pix[i + 1]?, p.Pix[i + 2]?, p.Pix[i + 3]? with
    | some r, some g, some b, some a => some ⟨r, g, b, a⟩
    | _, _, _, _ => none

/-- The Go type `image.Uniform`: an image of one colour. -/
structure Uniform where
  C : Color
  deriving DecidableEq, Repr

def NewUniform (c : Color) : Uniform := ⟨c⟩

/-- The method `Uniform.Bounds`. -/
def Uniform.Bounds (_u : Uniform) : Rectangle := ⟨⟨-1000000000, -1000000000⟩, ⟨1000000000, 1000000000⟩⟩

/-- The builtin `copy(pix[i0:i0+len(src)], src)`. -/
def copyAt (pix : List Nat) (i0 : Nat) (src : List Nat) : List Nat :=
  pix.take i0 ++ src ++ pix.drop (i0 + src.length)

/-- The row loop of `drawFillSrc`: the row `row` is copied to `count` rows,
the first of them starting at index `i0`, each `stride` bytes after the one
before. -/
def fillRows (stride : Nat) (row : List Nat) : Nat → Nat → List Nat → List Nat
  | 0, _, pix => pix
  | count + 1, i0, pix => fillRows stride row count (i0 + stride) (copyAt pix i0 row)

/-- The function `drawFillSrc` of `image/draw`: every pixel of `dst` inside `r`
is set to the colour given by its 16-bit channels.  The first row is written
pixel by pixel, the other rows are copies of it. -/
def drawFillSrc (dst : RGBA) (r : Rectangle) (sr sg sb sa : Nat) : RGBA :=
  let px := [(sr >>> 8) % 256, (sg >>> 8) % 256, (sb >>> 8) % 256, (sa >>> 8) % 256]
  let i0 := (dst.PixOffset r.Min.X r.Min.Y).toNat
  let firstRow := (List.replicate r.Dx.toNat px).flatten
  { dst with Pix := fillRows dst.Stride.toNat firstRow r.Dy.toNat i0 dst.Pix }

/-- The call `draw.Draw(dst, r, src, sp, draw.Src)` for a uniform source: `r`
is clipped to the bounds of `dst` and of the source, and what is left of it
is filled. -/
def Draw (dst : RGBA) (r : Rectangle) (src : Uniform) (sp : Point) : RGBA :=
  let orig := r.Min
  let r1 := r.Intersect dst.Bounds
  let r2 := r1.Intersect (src.Bounds.Add (orig.Sub sp))
  if r2.Empty then dst
  else
    let c := src.C.RGBA
    drawFillSrc dst r2 c.1 c.2.1 c.2.2.1 c.2.2.2

/-- What a Go call that returns a value and an error comes to: the value, the
error, or a panic with its message. -/
inductive Result (α : Type) where
  | ok (a : α)
  | error (e : Error)
  | panic (msg : String)
  deriving DecidableEq, Repr

/-- The function `generateImage` of `main.go`.  It returns the error for
dimensions that fail its checks, and panics where `image.NewRGBA` does. -/
def generateImage (width height : Int) : Result RGBA :=
  if width < 0 ∨ height < 0 then .error errorInvalidDimension
  else if width = 0 ∧ height = 0 then .error errorInvalidDimension
  else
    let wh : Int × Int :=
      if width = 0 then (height, height)
      else if height = 0 then (width, width)
      else (width, height)
    match NewRGBA (Rect 0 0 wh.1 wh.2) with
    | none => .panic "image: NewRGBA Rectangle has huge or negative dimensions"
    | some canvas => .ok (Draw canvas canvas.Bounds (NewUniform ⟨0xCE, 0xCE, 0xCE, 0xFF⟩) ZP)

/-! ## net/http -/

/-- Bytes of the UTF-8 encoding of a string. -/
def utf8 (s : String) : List Nat :=
  s.data.flatMap fun c => (String.utf8EncodeChar c).map UInt8.toNat

/-- The method `http.Header.Set` (the keys used are in canonical form). -/
def headerSet (h : List (String × String)) (k v : String) : List (String × String) :=
  (k, v) :: h.filter fun e => e.1 ≠ k

/-- What a handler has done to its `http.ResponseWriter`: the header map it
edits, whether the status line has gone out, and then the status, the headers
that went with it and the body bytes written so far. -/
structure ResponseWriter where
  header : List (String × String)
  wroteHeader : Bool
  status : Nat
  sent : List (String × String)
  body : List Nat
  deriving DecidableEq, Repr

/-- The writer a handler receives. -/
def ResponseWriter.fresh : ResponseWriter := ⟨[], false, 0, [], []⟩

/-- The call `w.Header().Set(k, v)`. -/
def ResponseWriter.HeaderSet (w : ResponseWriter) (k v : String) : ResponseWriter :=
  { w with header := headerSet w.header k v }

/-- The call `w.WriteHeader(code)`: the first call fixes the status and the
headers, a later one changes nothing. -/
def ResponseWriter.WriteHeader (w : ResponseWriter) (code : Nat) : ResponseWriter :=
  if w.wroteHeader then w
  else { w with wroteHeader := true, status := code, sent := w.header }

/-- The call `w.Write(b)`: it sends status 200 first when no status has been
sent. -/
def ResponseWriter.Write (w : ResponseWriter) (b : List Nat) : ResponseWriter :=
  let w1 := if w.wroteHeader then w else w.WriteHeader 200
  { w1 with body := w1.body ++ b }

/-! ## encoding/json -/

/-- One rune inside a JSON string as `json.Marshal` writes it: the quote, the
backslash, backspace, form feed, newline, carriage return and tab get their
short escapes; other control characters, and `<`, `>`, `&`, U+2028 and
U+2029, are written `\uXXXX`; every other rune is kept.  (The Go releases
before 1.22 write `\u0008` and `\u000c` for backspace and form feed, which
read back the same.) -/
def jsonRune (c : Char) : List Char :=
  if c = '\"' ∨ c = '\\' then ['\\', c]
  else if c.toNat = 8 then ['\\', 'b']
  else if c.toNat = 12 then ['\\', 'f']
  else if c = '\n' then ['\\', 'n']
  else if c = '\r' then ['\\', 'r']
  else if c = '\t' then ['\\', 't']
  else if c.toNat < 32 ∨ c = '<' ∨ c = '>' ∨ c = '&' ∨ c.toNat = 0x2028 ∨ c.toNat = 0x2029 then
    '\\' :: 'u' :: hex4 c.toNat
  else [c]

/-- A Go string as a JSON string literal. -/
def jsonString (s : String) : String :=
  String.mk ('\"' :: (s.data.flatMap jsonRune ++ ['\"']))

/-- The members of a JSON object, separated by commas. -/
def jsonMembers : List (String × String) → String
  | [] => ""
  | [e] => jsonString e.1 ++ ":" ++ jsonString e.2
  | e :: es => jsonString e.1 ++ ":" ++ jsonString e.2 ++ "," ++ jsonMembers es

/-- The call `json.Marshal(m)` for a `map[string]string` given by its entries
in key order: the bytes of the JSON object. -/
def jsonMarshal (m : List (String × String)) : List Nat :=
  utf8 ("\x7b" ++ jsonMembers m ++ "\x7d")

/-! ## Reading a JSON error object

The reader below is the counterpart of `jsonMarshal` used to state what a body
means: it follows RFC 8259 for strings. -/

/-- The value of a hexadecimal digit. -/
def hexValue (c : Char) : Option Nat :=
  if 48 ≤ c.toNat ∧ c.toNat ≤ 57 then some (c.toNat - 48)
  else if 97 ≤ c.toNat ∧ c.toNat ≤ 102 then some (c.toNat - 87)
  else if 65 ≤ c.toNat ∧ c.toNat ≤ 70 then some (c.toNat - 55)
  else none

/-- The character a two-character JSON escape `\e` stands for. -/
def unescape (e : Char) : Option Char :=
  if e = '\"' then some '\"'
  else if e = '\\' then some '\\'
  else if e = '/' then some '/'
  else if e = 'b' then some (Char.ofNat 8)
  else if e = 'f' then some (Char.ofNat 12)
  else if e = 'n' then some '\n'
  else if e = 'r' then some '\r'
  else if e = 't' then some '\t'
  else none

/-- Where the reader of a JSON string stands: in plain text, after a
backslash, or inside `\uXXXX` with `left` digits to come and the value `acc`
read so far. -/
inductive ReadState where
  | plain
  | escape
  | hex (left : Nat) (acc : Nat)
  deriving DecidableEq, Repr

/-- Reading a JSON string from just after its opening quote: the text up to
the closing quote with the escapes resolved, and what follows the closing
quote; `none` when the text is no JSON string.  (`\uXXXX` gives the character
with that code; surrogate halves are not paired.) -/
def readJsonString : ReadState → List Char → Option (List Char × List Char)
  | _, [] => none
  | .plain, c :: rest =>
    if c = '\"' then some ([], rest)
    else if c = '\\' then readJsonString .escape rest
    else if c.toNat < 32 then none
    else (readJsonString .plain rest).map fun p => (c :: p.1, p.2)
  | .escape, e :: rest =>
    if e = 'u' then readJsonString (.hex 4 0) rest
    else
      match unescape e with
      | none => none
      | some x => (readJsonString .plain rest).map fun p => (x :: p.1, p.2)
  | .hex left acc, c :: rest =>
    match hexValue c with
    | none => none
    | some v =>
      if left ≤ 1 then
        (readJsonString .plain rest).map fun p => (Char.ofNat (acc * 16 + v) :: p.1, p.2)
      else readJsonString (.hex (left - 1) (acc * 16 + v)) rest

/-- The message of a body of the form `{"error": "<message>"}`: the value of
the member `error` of a JSON object that has this one member; `none` for any
other text. -/
def errorMember (body : String) : Option String :=
  match body.data with
  | '\x7b' :: '\"' :: rest =>
    match readJsonString .plain rest with
    | some (key, ':' :: '\"' :: rest1) =>
      if key = "error".data then
        match readJsonString .plain rest1 with
        | some (value, ['\x7d']) => some (String.mk value)
        | _ => none
      else none
    | _ => none
  | _ => none

/-! ## image/jpeg -/

/-- The entropy-coded output of the JPEG encoder for an image and a quality:
a parameter of the model. -/
abbrev Compressor := RGBA → Nat → List Nat

/-- The call `jpeg.Encode(buffer, m, &jpeg.Options{Quality: quality})` into a
`bytes.Buffer`: an image with a side of 65536 pixels or more is refused, the
quality is clamped to 1..100, writing to the buffer does not fail. -/
def jpegEncode (compress : Compressor) (m : RGBA) (quality : Int) : Except Error (List Nat) :=
  let b := m.Bounds
  if b.Dx ≥ 65536 ∨ b.Dy ≥ 65536 then .error (errorsNew "jpeg: image is too large to encode")
  else
    let q := if quality < 1 then 1 else if quality > 100 then 100 else quality
    .ok (compress m q.toNat)

/-! ## The handlers of main.go -/

def imageQuality : Int := 75

/-- The function `sendError` of `main.go`. -/
def sendError (w : ResponseWriter) (err : Error) : ResponseWriter :=
  let response := jsonMarshal [("error", err.message)]
  let w1 := w.HeaderSet "Content-Type" "application/json"
  let w2 := w1.WriteHeader 400
  w2.Write response

/-- The document served by `serveMainPageRequest`. -/
def html : String := String.intercalate "\n" [
  "<!doctype html>",
  "<html lang=\"en\">",
  "<head>",
  "<meta charset=\"utf-8\">",
  "<meta name=\"viewport\" content=\"width=device-width, initial-scale=1, shrink-to-fit=no\">",
  "<!-- Bootstrap CSS -->",
  "<link rel=\"stylesheet\" href=\"https://maxcdn.bootstrapcdn.com/bootstrap/4.0.0/css/bootstrap.min.css\" integrity=\"sha384-Gn5384xqQ1aoWXA+058RXPxPg6fy4IWvTNh0E263XmFcJlSAwiGgFAW/dAiS6JXm\" crossorigin=\"anonymous\">",
  "<title>Placer!</title>",
  "</head>",
  "<body>",
  "<div class=\"container\">",
  "<div class=\"row\">",
  "<div class=\"col-sm\">",
  "<h1>Placer!</h1>",
  "<p>Provide image dimension (in px) as part of our URL to generate placeholder image.<br />Example:</p>",
  "<pre>",
  "&lt;img src=\"/WIDTHxHEIGHT.jpg\" /&gt;",
  "&lt;img src=\"/220x64.jpg\" /&gt;",
  "</pre>",
  "<p>will generate:</p>",
  "<a href=\"/220x64.jpg\"><img src=\"/220x64.jpg\" /></a>",
  "</div>",
  "</div>",
  "</div>",
  "</body>",
  "</html>"]

/-- The function `serveMainPageRequest` of `main.go`. -/
def serveMainPageRequest (w : ResponseWriter) : ResponseWriter :=
  w.Write (utf8 html)

/-- What serving a request comes to: the handler returns and the writer holds
the response, or the handler panics; net/http then recovers, logs the panic
and closes the connection, and no response is sent. -/
inductive Served where
  | response (w : ResponseWriter)
  | panic (msg : String)
  deriving DecidableEq, Repr

/-- The function `serveImageRequest` of `main.go`; `requestVars` is what
`mux.Vars(r)` returns. -/
def serveImageRequest (compress : Compressor) (w : ResponseWriter) (requestVars : Vars) :
    Served :=
  match getInputValue requestVars "width" with
  | .error err => .response (sendError w err)
  | .ok width =>
    match getInputValue requestVars "height" with
    | .error err => .response (sendError w err)
    | .ok height =>
      match generateImage width height with
      | .error err => .response (sendError w err)
      | .panic msg => .panic msg
      | .ok img =>
        match jpegEncode compress img imageQuality with
        | .error err => .response (sendError w err)
        | .ok buffer =>
          let w1 := w.HeaderSet "Content-Type" "image/jpeg"
          let w2 := w1.HeaderSet "Content-Length" (Itoa buffer.length)
          .response (w2.Write buffer)

/-! ## The router built in main -/

/-- A piece of a gorilla/mux path template: literal text, or a variable
`{name:[0-9]+}`. -/
inductive Seg where
  | lit (s : String)
  | digits (name : String)
  deriving DecidableEq, Repr

/-- The handlers registered in `main`. -/
inductive Handler where
  | serveMainPageRequest
  | serveImageRequest
  deriving DecidableEq, Repr

/-- A route: its path template, the methods it is limited to (`none` when
`Methods` was not called) and its handler. -/
structure Route where
  template : List Seg
  methods : Option (List String)
  handler : Handler
  deriving DecidableEq, Repr

/-- The routes registered in `main`, in registration order. -/
def routes : List Route := [
  ⟨[.lit "/"], none, .serveMainPageRequest⟩,
  ⟨[.lit "/", .digits "width"], some ["GET"], .serveImageRequest⟩,
  ⟨[.lit "/", .digits "width", .lit ".jpg"], some ["GET"], .serveImageRequest⟩,
  ⟨[.lit "/", .digits "width", .lit "/", .digits "height"], some ["GET"], .serveImageRequest⟩,
  ⟨[.lit "/", .digits "width", .lit "x", .digits "height"], some ["GET"], .serveImageRequest⟩,
  ⟨[.lit "/", .digits "width", .lit "/", .digits "height", .lit ".jpg"], some ["GET"],
    .serveImageRequest⟩,
  ⟨[.lit "/", .digits "width", .lit "x", .digits "height", .lit ".jpg"], some ["GET"],
    .serveImageRequest⟩]

/-- A request as the router sees it: the method and the URL path. -/
structure Request where
  Method : String
  Path : String
  deriving DecidableEq, Repr

/-- The pattern `[0-9]`. -/
def isDigit (c : Char) : Bool := decide (48 ≤ c.toNat ∧ c.toNat ≤ 57)

/-- The text left of `cs` after the literal `l`, when `cs` starts with it. -/
def stripLit : List Char → List Char → Option (List Char)
  | [], cs => some cs
  | _ :: _, [] => none
  | l :: ls, c :: cs => if l = c then stripLit ls cs else none

/-- The anchored regular expression mux compiles a template to, run on a path:
the captured variables when the whole path matches.  A variable takes the
longest run of digits; in the templates of `main` every variable is followed
by a literal that starts with no digit, or by the end, so that no other split
can match. -/
def matchTemplate : List Seg → List Char → Option Vars
  | [], [] => some []
  | [], _ :: _ => none
  | .lit s :: rest, cs =>
    match stripLit s.data cs with
    | none => none
    | some cs1 => matchTemplate rest cs1
  | .digits name :: rest, cs =>
    let ds := cs.takeWhile isDigit
    if ds = [] then none
    else
      match matchTemplate rest (cs.dropWhile isDigit) with
      | none => none
      | some vars => some ((name, String.mk ds) :: vars)

/-- The outcome of `Router.Match`. -/
inductive RouteMatch where
  | found (h : Handler) (vars : Vars)
  | methodMismatch
  | notFound
  deriving DecidableEq, Repr

/-- The method `Router.Match` of gorilla/mux.  The routes are tried in
registration order.  A route whose template matches the path and whose methods
exclude the request method records `ErrMethodMismatch` (the flag `mismatch`)
and the search goes on; a later route that matches in full wins and clears it.
When no route matches, the outcome is the method mismatch if one was recorded,
and not found otherwise. -/
def routerMatch : List Route → Request → Bool → RouteMatch
  | [], _, mismatch => if mismatch then .methodMismatch else .notFound
  | r :: rs, req, mismatch =>
    match matchTemplate r.template req.Path.data with
    | none => routerMatch rs req mismatch
    | some vars =>
      match r.methods with
      | none => .found r.handler vars
      | some ms => if req.Method ∈ ms then .found r.handler vars else routerMatch rs req true

/-- The elements of a path: the pieces between its slashes. -/
def splitSlash : List Char → List (List Char)
  | [] => [[]]
  | c :: cs =>
    if c = '/' then [] :: splitSlash cs
    else
      match splitSlash cs with
      | [] => [[c]]
      | e :: es => (c :: e) :: es

/-- The elements of a path put together again, a slash between two. -/
def joinSlash : List (List Char) → List Char
  | [] => []
  | [e] => e
  | e :: es => e ++ '/' :: joinSlash es

/-- The element rules of the Go function `path.Clean` for a rooted path: an
empty element and `.` are dropped, `..` drops the element kept before it (at
the root there is none and it is dropped alone), every other element is kept.
`kept` holds the elements kept so far, the last one first. -/
def cleanElems : List (List Char) → List (List Char) → List (List Char)
  | [], kept => kept.reverse
  | e :: es, kept =>
    if e = [] ∨ e = ['.'] then cleanElems es kept
    else if e = ['.', '.'] then cleanElems es kept.tail
    else cleanElems es (e :: kept)

/-- The Go function `path.Clean` on a rooted path. -/
def pathClean (p : List Char) : List Char :=
  '/' :: joinSlash (cleanElems (splitSlash p) [])

/-- Whether a path ends with a slash. -/
def endsWithSlash : List Char → Bool
  | [] => false
  | [c] => decide (c = '/')
  | _ :: c :: cs => endsWithSlash (c :: cs)

/-- The function `cleanPath` of gorilla/mux: the path made rooted and cleaned
with `path.Clean`, a trailing slash put back. -/
def cleanPath (p : String) : String :=
  if p.data = [] then "/"
  else
    let p1 := if p.data.head? = some '/' then p.data else '/' :: p.data
    let np := pathClean p1
    if endsWithSlash p1 ∧ np ≠ ['/'] then String.mk (np ++ ['/']) else String.mk np

/-- The handler set as `r.NotFoundHandler` in `main`. -/
def notFoundHandler (w : ResponseWriter) : ResponseWriter :=
  sendError w error404

/-- The handler gorilla/mux itself uses for `ErrMethodMismatch` when the router
has no `MethodNotAllowedHandler`, as in `main`: status 405 (Method Not
Allowed), no body. -/
def methodNotAllowedHandler (w : ResponseWriter) : ResponseWriter :=
  w.WriteHeader 405

/-- The answer of gorilla/mux to a path that is not clean: status 301 (Moved
Permanently) with the header `Location`, no body.  The location is the
request URL with the cleaned path; for a request without a query whose path
needs no escaping that is the cleaned path. -/
def redirectHandler (w : ResponseWriter) (location : String) : ResponseWriter :=
  (w.HeaderSet "Location" location).WriteHeader 301

/-- The method `Router.ServeHTTP` for the router built in `main`: what serving
a request comes to.  A path that is not in clean form is redirected before
anything is matched.  Otherwise a matched route runs its handler with the
captured variables; `r.NotFoundHandler`, set in `main`, answers when no
template matches the path; a method mismatch is answered by the handler of
mux. -/
def ServeHTTP (compress : Compressor) (req : Request) : Served :=
  if cleanPath req.Path ≠ req.Path then
    .response (redirectHandler ResponseWriter.fresh (cleanPath req.Path))
  else
    match routerMatch routes req false with
    | .found .serveMainPageRequest _ => .response (serveMainPageRequest ResponseWriter.fresh)
    | .found .serveImageRequest vars => serveImageRequest compress ResponseWriter.fresh vars
    | .methodMismatch => .response (methodNotAllowedHandler ResponseWriter.fresh)
    | .notFound => .response (notFoundHandler ResponseWriter.fresh)

/-! ## Lemmas on the image model -/

theorem length_flatten_replicate (n : Nat) (row : List Nat) :
    (List.replicate n row).flatten.length = n * row.length := by
  induction n with
  | zero => simp
  | succ k ih => simp [List.replicate_succ, ih, Nat.succ_mul, Nat.add_comm]

theorem getElem?_flatten_replicate (row : List Nat) (s : Nat) (hs : row.length = s) :
    ∀ (n y i : Nat), y < n → i < s →
      (List.replicate n row).flatten[y * s + i]? = row[i]? := by
  intro n
  induction n with
  | zero => intro y i hy; omega
  | succ k ih =>
    intro y i hy hi
    rw [List.replicate_succ, List.flatten_cons]
    cases y with
    | zero =>
      rw [List.getElem?_append_left (by omega)]
      simp
    | succ y =>
      rw [List.getElem?_append_right (by rw [hs, Nat.succ_mul]; omega)]
      have : (y + 1) * s + i - row.length = y * s + i := by
        rw [hs, Nat.succ_mul]; omega
      rw [this]
      exact ih y i (by omega) hi

theorem length_copyAt (pix : List Nat) (i0 : Nat) (src : List Nat)
    (h : i0 + src.length ≤ pix.length) : (copyAt pix i0 src).length = pix.length := by
  simp [copyAt]; omega

theorem fillRows_eq (stride : Nat) (row : List Nat) (hrow : row.length = stride) :
    ∀ (count i0 : Nat) (pix : List Nat), i0 + count * stride ≤ pix.length →
      fillRows stride row count i0 pix
        = pix.take i0 ++ (List.replicate count row).flatten ++ pix.drop (i0 + count * stride) := by
  intro count
  induction count with
  | zero => intro i0 pix _; simp [fillRows]
  | succ k ih =>
    intro i0 pix h
    have h1 : i0 + row.length ≤ pix.length := by
      rw [hrow]; rw [Nat.succ_mul] at h; omega
    have hlen := length_copyAt pix i0 row h1
    rw [fillRows, ih (i0 + stride) (copyAt pix i0 row) (by rw [hlen, Nat.succ_mul] at *; omega)]
    have htake : (copyAt pix i0 row).take (i0 + stride) = pix.take i0 ++ row := by
      have hl : (pix.take i0 ++ row).length = i0 + stride := by
        simp [hrow]; omega
      unfold copyAt
      rw [← hl, List.take_left]
    have hdrop : (copyAt pix i0 row).drop (i0 + stride + k * stride)
        = pix.drop (i0 + (k + 1) * stride) := by
      have hl : (pix.take i0 ++ row).length = i0 + stride := by
        simp [hrow]; omega
      unfold copyAt
      rw [← hl, List.drop_append, List.drop_drop, hrow]
      congr 1
      rw [Nat.succ_mul]; omega
    rw [htake, hdrop, List.replicate_succ, List.flatten_cons]
    simp [List.append_assoc]

theorem Rect_of_nonneg (w h : Int) (hw : 0 ≤ w) (hh : 0 ≤ h) :
    Rect 0 0 w h = ⟨⟨0, 0⟩, ⟨w, h⟩⟩ := by
  have h1 : ¬ (0 > w) := by omega
  have h2 : ¬ (0 > h) := by omega
  simp [Rect, h1, h2]

/-- `Draw` leaves the bounds and the stride of the destination alone. -/
theorem Draw_Rect (dst : RGBA) (r : Rectangle) (src : Uniform) (sp : Point) :
    (Draw dst r src sp).Rect = dst.Rect ∧ (Draw dst r src sp).Stride = dst.Stride := by
  unfold Draw
  simp only []
  split <;> simp [drawFillSrc]

/-- The buffer length of a `w` by `h` image when `4 * w * h` fits an `int`. -/
theorem mul3NonNeg_fits (w h : Int) (hw : 0 < w) (hh : 0 < h) (hfit : 4 * w * h ≤ 2 ^ 63 - 1) :
    mul3NonNeg 4 w h = 4 * w * h := by
  have h4 : 4 * w ≤ 4 * w * h := by nlinarith
  unfold mul3NonNeg
  rw [if_neg (by omega), if_neg (by omega), if_neg (by omega), if_neg (by omega)]

/-- The buffer length of a `w` by `h` image when `4 * w * h` overflows. -/
theorem mul3NonNeg_overflow (w h : Int) (hbig : 2 ^ 63 ≤ 4 * w * h) :
    mul3NonNeg 4 w h = -1 := by
  unfold mul3NonNeg
  split_ifs <;> rfl

/-- `NewRGBA` on the bounds of a `w` by `h` image whose buffer length fits. -/
theorem NewRGBA_fits (w h : Int) (hw : 0 < w) (hh : 0 < h) (hfit : 4 * w * h ≤ 2 ^ 63 - 1) :
    NewRGBA (Rect 0 0 w h) =
      some { Pix := List.replicate (4 * w * h).toNat 0, Stride := 4 * w,
             Rect := ⟨⟨0, 0⟩, ⟨w, h⟩⟩ } := by
  rw [Rect_of_nonneg w h (by omega) (by omega)]
  have hm := mul3NonNeg_fits w h hw hh hfit
  have hnn : ¬ (4 * w * h < 0) := by nlinarith
  simp only [NewRGBA, Rectangle.Dx, Rectangle.Dy, Int.sub_zero, hm, hnn, if_false]

/-- `NewRGBA` panics on the bounds of a `w` by `h` image whose buffer length
overflows. -/
theorem NewRGBA_overflow (w h : Int) (hw : 0 < w) (hh : 0 < h) (hbig : 2 ^ 63 ≤ 4 * w * h) :
    NewRGBA (Rect 0 0 w h) = none := by
  rw [Rect_of_nonneg w h (by omega) (by omega)]
  have hm := mul3NonNeg_overflow w h hbig
  simp only [NewRGBA, Rectangle.Dx, Rectangle.Dy, Int.sub_zero, hm]
  rfl

/-- What `generateImage` does for dimensions that pass its checks. -/
theorem generateImage_checked (width height : Int) (h1 : ¬ (width < 0 ∨ height < 0))
    (h2 : ¬ (width = 0 ∧ height = 0)) :
    generateImage width height =
      match NewRGBA (Rect 0 0 (if width = 0 then height else width)
          (if width = 0 then height else if height = 0 then width else height)) with
      | none => .panic "image: NewRGBA Rectangle has huge or negative dimensions"
      | some canvas => .ok (Draw canvas canvas.Bounds (NewUniform ⟨0xCE, 0xCE, 0xCE, 0xFF⟩) ZP) := by
  unfold generateImage
  rw [if_neg h1, if_neg h2]
  by_cases hw : width = 0
  · simp [hw]
  · by_cases hh : height = 0
    · simp [hw, hh]
    · simp [hw, hh]

/-- The canvas `generateImage` returns for positive dimensions whose buffer
length fits an `int`. -/
theorem generateImage_ok (w h : Int) (hw : 0 < w) (hh : 0 < h) (hfit : 4 * w * h ≤ 2 ^ 63 - 1) :
    generateImage w h =
      .ok (Draw { Pix := List.replicate (4 * w * h).toNat 0, Stride := 4 * w,
                  Rect := ⟨⟨0, 0⟩, ⟨w, h⟩⟩ }
            ⟨⟨0, 0⟩, ⟨w, h⟩⟩ (NewUniform ⟨0xCE, 0xCE, 0xCE, 0xFF⟩) ZP) := by
  have hw0 : ¬ (w = 0) := by omega
  have hh0 : ¬ (h = 0) := by omega
  rw [generateImage_checked w h (by omega) (by omega)]
  simp only [hw0, hh0, if_false]
  rw [NewRGBA_fits w h hw hh hfit]
  rfl

/-- With a zero width or height `generateImage` is the call for the square. -/
theorem generateImage_zero (n : Int) (hn : 0 < n) :
    generateImage 0 n = generateImage n n ∧ generateImage n 0 = generateImage n n := by
  have hn0 : ¬ (n = 0) := by omega
  constructor
  · rw [generateImage_checked 0 n (by omega) (by omega),
      generateImage_checked n n (by omega) (by omega)]
    simp [hn0]
  · rw [generateImage_checked n 0 (by omega) (by omega),
      generateImage_checked n n (by omega) (by omega)]
    simp [hn0]

/-- `generateImage` panics for positive dimensions whose buffer length
overflows an `int`. -/
theorem generateImage_panic (w h : Int) (hw : 0 < w) (hh : 0 < h) (hbig : 2 ^ 63 ≤ 4 * w * h) :
    generateImage w h = .panic "image: NewRGBA Rectangle has huge or negative dimensions" := by
  have hw0 : ¬ (w = 0) := by omega
  have hh0 : ¬ (h = 0) := by omega
  rw [generateImage_checked w h (by omega) (by omega)]
  simp only [hw0, hh0, if_false]
  rw [NewRGBA_overflow w h hw hh hbig]

/-- The row loop keeps the length of the buffer when the rows lie inside it. -/
theorem length_fillRows (stride : Nat) (row : List Nat) :
    ∀ (count i0 : Nat) (pix : List Nat),
      (count = 0 ∨ i0 + (count - 1) * stride + row.length ≤ pix.length) →
      (fillRows stride row count i0 pix).length = pix.length := by
  intro count
  induction count with
  | zero => intro i0 pix _; rfl
  | succ k ih =>
    intro i0 pix h
    have h1 : i0 + k * stride + row.length ≤ pix.length := by
      rcases h with h | h
      · omega
      · simpa using h
    have hlen := length_copyAt pix i0 row (by omega)
    rw [fillRows, ih (i0 + stride) (copyAt pix i0 row)]
    · exact hlen
    · cases k with
      | zero => exact Or.inl rfl
      | succ m =>
        right
        rw [hlen]
        have : i0 + stride + (m + 1 - 1) * stride + row.length
            = i0 + (m + 1) * stride + row.length := by
          rw [Nat.add_sub_cancel, Nat.succ_mul]; omega
        rw [this]
        exact h1

/-- Filling a fresh canvas of `w` by `h` pixels keeps the length of its
buffer, whatever part of it the fill reaches. -/
theorem Draw_length (w h : Int) (hw : 0 < w) (hh : 0 < h) (c : Color) :
    (Draw { Pix := List.replicate (4 * w * h).toNat 0, Stride := 4 * w,
            Rect := ⟨⟨0, 0⟩, ⟨w, h⟩⟩ }
        ⟨⟨0, 0⟩, ⟨w, h⟩⟩ (NewUniform c) ZP).Pix.length = (4 * w * h).toNat := by
  have e1 : ¬ (0 ≥ w ∨ 0 ≥ h) := by omega
  have hI1 : (Rectangle.Intersect ⟨⟨0, 0⟩, ⟨w, h⟩⟩ (RGBA.Bounds
      { Pix := List.replicate (4 * w * h).toNat 0, Stride := 4 * w,
        Rect := ⟨⟨0, 0⟩, ⟨w, h⟩⟩ })) = ⟨⟨0, 0⟩, ⟨w, h⟩⟩ := by
    simp [Rectangle.Intersect, RGBA.Bounds, Rectangle.Empty, e1]
  have hI2 : (Rectangle.Intersect ⟨⟨0, 0⟩, ⟨w, h⟩⟩
      ((NewUniform c).Bounds.Add (Point.Sub ⟨0, 0⟩ ZP)))
      = ⟨⟨0, 0⟩, ⟨if w > 1000000000 then 1000000000 else w,
          if h > 1000000000 then 1000000000 else h⟩⟩ := by
    have hne : ¬ ((0 : Int) ≥ (if w > 1000000000 then 1000000000 else w) ∨
        (0 : Int) ≥ (if h > 1000000000 then 1000000000 else h)) := by
      split <;> split <;> omega
    simp [Rectangle.Intersect, Uniform.Bounds, Rectangle.Add, Point.Sub, ZP, Rectangle.Empty,
      hne]
  unfold Draw
  simp only [hI1, hI2]
  have hE : Rectangle.Empty ⟨⟨0, 0⟩, ⟨if w > 1000000000 then 1000000000 else w,
      if h > 1000000000 then 1000000000 else h⟩⟩ = false := by
    simp only [Rectangle.Empty, decide_eq_false_iff_not]
    split <;> split <;> omega
  rw [hE]
  simp only [Bool.false_eq_true, if_false]
  unfold drawFillSrc
  simp only [RGBA.PixOffset, Rectangle.Dx, Rectangle.Dy, Int.sub_zero, Int.sub_self,
    Int.zero_mul, Int.add_zero, Int.toNat_zero]
  rw [length_fillRows]
  · simp
  · right
    rw [length_flatten_replicate]
    simp only [List.length_replicate, List.length_cons, List.length_nil, Nat.zero_add]
    have hw' : (if w > 1000000000 then (1000000000 : Int) else w).toNat ≤ w.toNat := by
      split <;> omega
    have hh' : (if h > 1000000000 then (1000000000 : Int) else h).toNat ≤ h.toNat := by
      split <;> omega
    have hh1 : 1 ≤ (if h > 1000000000 then (1000000000 : Int) else h).toNat := by
      split <;> omega
    have hs : (4 * w).toNat = 4 * w.toNat := by omega
    have ht : (4 * w * h).toNat = h.toNat * (4 * w.toNat) := by
      have : (4 * w * h) = ((h.toNat * (4 * w.toNat) : Nat) : Int) := by
        push_cast
        rw [Int.toNat_of_nonneg (by omega), Int.toNat_of_nonneg (by omega)]
        ring
      rw [this, Int.toNat_ofNat]
    rw [hs, ht]
    generalize (if h > 1000000000 then (1000000000 : Int) else h).toNat = c1 at *
    generalize (if w > 1000000000 then (1000000000 : Int) else w).toNat = r1 at *
    generalize hsdef : 4 * w.toNat = s at *
    obtain ⟨k, rfl⟩ : ∃ k, c1 = k + 1 := ⟨c1 - 1, by omega⟩
    have h2 : (k + 1) * s ≤ h.toNat * s := Nat.mul_le_mul_right _ hh'
    rw [Nat.succ_mul] at h2
    rw [Nat.add_sub_cancel]
    omega

/-- Filling a fresh canvas of `w` by `h` pixels, both within the extent of a
uniform image, writes the colour to every pixel. -/
theorem Draw_NewRGBA (w h : Int) (hw : 0 < w) (hh : 0 < h) (hwb : w ≤ 1000000000)
    (hhb : h ≤ 1000000000) (c : Color) :
    Draw { Pix := List.replicate (4 * w * h).toNat 0, Stride := 4 * w,
           Rect := ⟨⟨0, 0⟩, ⟨w, h⟩⟩ }
        ⟨⟨0, 0⟩, ⟨w, h⟩⟩ (NewUniform c) ZP =
      { Pix := (List.replicate h.toNat (List.replicate w.toNat
            [(c.RGBA.1 >>> 8) % 256, (c.RGBA.2.1 >>> 8) % 256, (c.RGBA.2.2.1 >>> 8) % 256,
              (c.RGBA.2.2.2 >>> 8) % 256]).flatten).flatten,
        Stride := 4 * w,
        Rect := ⟨⟨0, 0⟩, ⟨w, h⟩⟩ } := by
  have e1 : ¬ (0 ≥ w ∨ 0 ≥ h) := by omega
  have hI1 : (Rectangle.Intersect ⟨⟨0, 0⟩, ⟨w, h⟩⟩ (RGBA.Bounds
      { Pix := List.replicate (4 * w * h).toNat 0, Stride := 4 * w,
        Rect := ⟨⟨0, 0⟩, ⟨w, h⟩⟩ })) = ⟨⟨0, 0⟩, ⟨w, h⟩⟩ := by
    simp [Rectangle.Intersect, RGBA.Bounds, Rectangle.Empty, e1]
  have hI2 : (Rectangle.Intersect ⟨⟨0, 0⟩, ⟨w, h⟩⟩
      ((NewUniform c).Bounds.Add (Point.Sub ⟨0, 0⟩ ZP))) = ⟨⟨0, 0⟩, ⟨w, h⟩⟩ := by
    have a1 : ¬ (w > 1000000000) := by omega
    have a2 : ¬ (h > 1000000000) := by omega
    simp [Rectangle.Intersect, Uniform.Bounds, Rectangle.Add, Point.Sub, ZP, Rectangle.Empty,
      e1, a1, a2]
  unfold Draw
  simp only [hI1, hI2]
  have hE : Rectangle.Empty ⟨⟨0, 0⟩, ⟨w, h⟩⟩ = false := by
    simp [Rectangle.Empty]; omega
  rw [hE]
  simp only [Bool.false_eq_true, if_false]
  unfold drawFillSrc
  simp only [RGBA.PixOffset, Rectangle.Dx, Rectangle.Dy, NewUniform, Int.sub_zero,
    Int.sub_self, Int.zero_mul, Int.add_zero, Int.toNat_zero]
  have hrowlen : (List.replicate w.toNat
      [(c.RGBA.1 >>> 8) % 256, (c.RGBA.2.1 >>> 8) % 256, (c.RGBA.2.2.1 >>> 8) % 256,
        (c.RGBA.2.2.2 >>> 8) % 256]).flatten.length = (4 * w).toNat := by
    rw [length_flatten_replicate]; simp; omega
  have hpix : (4 * w * h).toNat = h.toNat * (4 * w).toNat := by
    have : (4 * w * h) = ((h.toNat * (4 * w).toNat : Nat) : Int) := by
      push_cast
      rw [Int.toNat_of_nonneg (by omega), Int.toNat_of_nonneg (by omega)]
      ring
    rw [this, Int.toNat_ofNat]
  rw [fillRows_eq _ _ hrowlen _ _ _ (by simp [hpix])]
  simp [hpix]

/-- Reading a pixel of an image whose rows are all the same repeated pixel. -/
theorem RGBAAt_uniform (w h : Int) (hw : 0 < w) (hh : 0 < h) (r g b a : Nat) (x y : Int)
    (hx0 : 0 ≤ x) (hx : x < w) (hy0 : 0 ≤ y) (hy : y < h) :
    RGBA.RGBAAt
      { Pix := (List.replicate h.toNat (List.replicate w.toNat [r, g, b, a]).flatten).flatten,
        Stride := 4 * w, Rect := ⟨⟨0, 0⟩, ⟨w, h⟩⟩ } x y = some ⟨r, g, b, a⟩ := by
  have hin : Point.In ⟨x, y⟩ ⟨⟨0, 0⟩, ⟨w, h⟩⟩ = true := by
    simp [Point.In]; omega
  have hrow : (List.replicate w.toNat [r, g, b, a]).flatten.length = 4 * w.toNat := by
    rw [length_flatten_replicate]; simp; omega
  have hoff : ((y - 0) * (4 * w) + (x - 0) * 4).toNat = y.toNat * (4 * w.toNat) + 4 * x.toNat := by
    have : (y - 0) * (4 * w) + (x - 0) * 4
        = ((y.toNat * (4 * w.toNat) + 4 * x.toNat : Nat) : Int) := by
      push_cast
      rw [Int.toNat_of_nonneg hy0, Int.toNat_of_nonneg (by omega : 0 ≤ w),
        Int.toNat_of_nonneg hx0]
      ring
    rw [this, Int.toNat_ofNat]
  have hget : ∀ k : Nat, k < 4 →
      (List.replicate h.toNat (List.replicate w.toNat [r, g, b, a]).flatten).flatten[
        y.toNat * (4 * w.toNat) + 4 * x.toNat + k]? = [r, g, b, a][k]? := by
    intro k hk
    rw [Nat.add_assoc,
      getElem?_flatten_replicate _ (4 * w.toNat) hrow h.toNat y.toNat (4 * x.toNat + k)
        (by omega) (by omega)]
    have := getElem?_flatten_replicate [r, g, b, a] 4 rfl w.toNat x.toNat k (by omega) hk
    rw [Nat.mul_comm] at this
    exact this
  unfold RGBA.RGBAAt
  simp only [hin, not_true_eq_false, if_false, RGBA.PixOffset, hoff]
  have h0 := hget 0 (by omega)
  have h1 := hget 1 (by omega)
  have h2 := hget 2 (by omega)
  have h3 := hget 3 (by omega)
  simp only [Nat.add_zero] at h0
  rw [h0, h1, h2, h3]
  rfl

/-! ## Lemmas on strconv.Atoi -/

theorem decimalFrom_ge (cs : List Char) :
    ∀ n : Nat, n ≤ cs.foldl (fun n c => 10 * n + (c.toNat - 48)) n := by
  induction cs with
  | nil => intro n; simp
  | cons c cs ih =>
    intro n
    simp only [List.foldl_cons]
    exact Nat.le_trans (by omega) (ih (10 * n + (c.toNat - 48)))

/-- On digits the loop of `ParseUint` computes the decimal value, and reports a
range error exactly when that value does not fit 64 bits. -/
theorem parseUintLoop_digits (cs : List Char) :
    ∀ n : Nat, n < 2 ^ 64 → (∀ c ∈ cs, isDigit c = true) →
      parseUintLoop cs n =
        if cs.foldl (fun n c => 10 * n + (c.toNat - 48)) n < 2 ^ 64
        then some (some (cs.foldl (fun n c => 10 * n + (c.toNat - 48)) n))
        else some none := by
  induction cs with
  | nil =>
    intro n hn _
    simp only [parseUintLoop, List.foldl_nil]
    rw [if_pos hn]
  | cons c cs ih =>
    intro n hn hd
    have hc : isDigit c = true := hd c (List.mem_cons_self _ _)
    have hcs : ∀ c ∈ cs, isDigit c = true := fun x hx => hd x (List.mem_cons_of_mem _ hx)
    simp only [isDigit, decide_eq_true_eq] at hc
    have hnd : ¬ (c.toNat < 48 ∨ 57 < c.toNat) := by omega
    have hge := decimalFrom_ge cs (10 * n + (c.toNat - 48))
    simp only [parseUintLoop, List.foldl_cons, hnd, if_false, maxUint64]
    by_cases hcut : n ≥ (2 ^ 64 - 1) / 10 + 1
    · rw [if_pos hcut]
      have : ¬ (cs.foldl (fun n c => 10 * n + (c.toNat - 48)) (10 * n + (c.toNat - 48)) < 2 ^ 64) := by
        norm_num at hcut ⊢
        omega
      rw [if_neg this]
    · rw [if_neg hcut]
      norm_num at hcut
      by_cases hov : 10 * n + (c.toNat - 48) < 2 ^ 64
      · have hmod : (n * 10 + (c.toNat - 48)) % 2 ^ 64 = 10 * n + (c.toNat - 48) := by
          rw [Nat.mul_comm]; exact Nat.mod_eq_of_lt hov
        rw [hmod]
        have hno : ¬ (10 * n + (c.toNat - 48) < n * 10 ∨ 10 * n + (c.toNat - 48) > 2 ^ 64 - 1) := by
          norm_num at hov ⊢
          omega
        rw [if_neg hno]
        exact ih _ hov hcs
      · have hwrap : (n * 10 + (c.toNat - 48)) % 2 ^ 64 < n * 10 := by
          norm_num at hov ⊢
          omega
        rw [if_pos (Or.inl hwrap)]
        have : ¬ (cs.foldl (fun n c => 10 * n + (c.toNat - 48)) (10 * n + (c.toNat - 48)) < 2 ^ 64) := by
          omega
        rw [if_neg this]

/-- On a non-empty string of digits `Atoi` returns the decimal value when it
is below 2^63, and a range error otherwise. -/
theorem Atoi_digits (s : String) (hne : s.data ≠ []) (hd : ∀ c ∈ s.data, isDigit c = true) :
    Atoi s = if decimalValue s < 2 ^ 63 then .ok (decimalValue s : Int)
      else .error (.numError "Atoi" s ErrRange) := by
  obtain ⟨data⟩ := s
  cases data with
  | nil => exact absurd rfl hne
  | cons c cs =>
    have hc : isDigit c = true := hd c (List.mem_cons_self _ _)
    simp only [isDigit, decide_eq_true_eq] at hc
    have hplus : ¬ (c = '+') := by
      intro h; rw [h] at hc; revert hc; decide
    have hminus : ¬ (c = '-') := by
      intro h; rw [h] at hc; revert hc; decide
    have hloop := parseUintLoop_digits (c :: cs) 0 (by norm_num) hd
    have hval : decimalValue ⟨c :: cs⟩
        = (c :: cs).foldl (fun n c => 10 * n + (c.toNat - 48)) 0 := rfl
    rw [← hval] at hloop
    simp only [Atoi, parseUint, hplus, hminus, or_self, if_false, List.cons_ne_nil, hloop,
      intSize, maxUint64]
    by_cases h64 : decimalValue ⟨c :: cs⟩ < 2 ^ 64
    · rw [if_pos h64]
      simp only [Option.getD_some]
      norm_num at h64 ⊢
      split_ifs <;> first | rfl | omega
    · rw [if_neg h64]
      simp only [Option.getD_none]
      norm_num at h64 ⊢
      split_ifs <;> first | rfl | omega

theorem getInputValue_present (requestVars : Vars) (keyName s : String)
    (hget : requestVars.get keyName = some s) : getInputValue requestVars keyName = Atoi s := by
  unfold getInputValue
  rw [hget]
  dsimp only
  cases Atoi s <;> rfl

theorem getInputValue_absent (requestVars : Vars) (keyName : String)
    (hget : requestVars.get keyName = none) : getInputValue requestVars keyName = .ok 0 := by
  unfold getInputValue
  rw [hget]

/-! ## Lemmas on the handlers -/

/-- The response `sendError` writes to a fresh writer. -/
theorem sendError_fresh (err : Error) :
    sendError ResponseWriter.fresh err =
      { header := [("Content-Type", "application/json")], wroteHeader := true, status := 400,
        sent := [("Content-Type", "application/json")],
        body := jsonMarshal [("error", err.message)] } := by
  simp [sendError, ResponseWriter.fresh, ResponseWriter.HeaderSet, ResponseWriter.WriteHeader,
    ResponseWriter.Write, headerSet]

/-- The response of `serveImageRequest` once the four steps have succeeded. -/
theorem imageResponse_fresh (buffer : List Nat) :
    ((ResponseWriter.fresh.HeaderSet "Content-Type" "image/jpeg").HeaderSet "Content-Length"
        (Itoa buffer.length)).Write buffer =
      { header := [("Content-Length", Itoa buffer.length), ("Content-Type", "image/jpeg")],
        wroteHeader := true, status := 200,
        sent := [("Content-Length", Itoa buffer.length), ("Content-Type", "image/jpeg")],
        body := buffer } := by
  simp [ResponseWriter.fresh, ResponseWriter.HeaderSet, ResponseWriter.WriteHeader,
    ResponseWriter.Write, headerSet]

theorem jsonMarshal_error (msg : String) :
    jsonMarshal [("error", msg)] = utf8 ("\x7b\"error\":" ++ jsonString msg ++ "\x7d") := by
  simp only [jsonMarshal, jsonMembers]
  have : jsonString "error" = "\"error\"" := by decide
  rw [this]
  congr 1

/-- The handler when the width does not parse. -/
theorem serveImageRequest_width_error (compress : Compressor) (w : ResponseWriter)
    (requestVars : Vars) (e : Error) (hw : getInputValue requestVars "width" = .error e) :
    serveImageRequest compress w requestVars = .response (sendError w e) := by
  unfold serveImageRequest
  rw [hw]

/-- The handler when the height does not parse. -/
theorem serveImageRequest_height_error (compress : Compressor) (w : ResponseWriter)
    (requestVars : Vars) (width : Int) (e : Error)
    (hw : getInputValue requestVars "width" = .ok width)
    (hh : getInputValue requestVars "height" = .error e) :
    serveImageRequest compress w requestVars = .response (sendError w e) := by
  unfold serveImageRequest
  rw [hw, hh]

/-- The handler once both dimensions are parsed: the error of `generateImage`
or of the encoder is sent with `sendError`, a panic of `generateImage` ends
the handler, and otherwise the encoded image is written. -/
theorem serveImageRequest_parsed (compress : Compressor) (w : ResponseWriter)
    (requestVars : Vars) (width height : Int)
    (hw : getInputValue requestVars "width" = .ok width)
    (hh : getInputValue requestVars "height" = .ok height) :
    serveImageRequest compress w requestVars =
      match generateImage width height with
      | .error err => .response (sendError w err)
      | .panic msg => .panic msg
      | .ok img =>
        match jpegEncode compress img imageQuality with
        | .error err => .response (sendError w err)
        | .ok buffer =>
          .response (((w.HeaderSet "Content-Type" "image/jpeg").HeaderSet "Content-Length"
            (Itoa buffer.length)).Write buffer) := by
  unfold serveImageRequest
  rw [hw, hh]

/-! ## Lemmas on the router -/

theorem data_slash : ("/" : String).data = ['/'] := rfl
theorem data_x : ("x" : String).data = ['x'] := rfl
theorem data_jpg : (".jpg" : String).data = ['.', 'j', 'p', 'g'] := rfl

theorem matchTemplate_digits_end (name : String) (segs : List Seg) (ds : List Char)
    (hne : ds ≠ []) (hd : ∀ c ∈ ds, isDigit c = true) :
    matchTemplate (.digits name :: segs) ds =
      match matchTemplate segs [] with
      | none => none
      | some vars => some ((name, String.mk ds) :: vars) := by
  have h1 : ds.takeWhile isDigit = ds := List.takeWhile_eq_self_iff.mpr hd
  have h2 : ds.dropWhile isDigit = [] := List.dropWhile_eq_nil_iff.mpr hd
  rw [matchTemplate]
  simp only [h1, h2, hne, if_false]

theorem matchTemplate_digits_cons (name : String) (segs : List Seg) (ds : List Char)
    (hne : ds ≠ []) (hd : ∀ c ∈ ds, isDigit c = true) (c : Char) (t : List Char)
    (hc : isDigit c = false) :
    matchTemplate (.digits name :: segs) (ds ++ c :: t) =
      match matchTemplate segs (c :: t) with
      | none => none
      | some vars => some ((name, String.mk ds) :: vars) := by
  have h1 : (ds ++ c :: t).takeWhile isDigit = ds := by
    rw [List.takeWhile_append_of_pos hd, List.takeWhile_cons]
    simp [hc]
  have h2 : (ds ++ c :: t).dropWhile isDigit = c :: t := by
    rw [List.dropWhile_append_of_pos hd, List.dropWhile_cons]
    simp [hc]
  rw [matchTemplate]
  simp only [h1, h2, hne, if_false]

theorem matchTemplate_nil_nil : matchTemplate [] [] = some [] := by
  rw [matchTemplate]

theorem matchTemplate_nil_of_ne (cs : List Char) (h : cs ≠ []) : matchTemplate [] cs = none := by
  cases cs with
  | nil => exact absurd rfl h
  | cons c t => rw [matchTemplate]

theorem matchTemplate_lit (s : String) (rest : List Seg) (cs : List Char) :
    matchTemplate (.lit s :: rest) cs =
      match stripLit s.data cs with
      | none => none
      | some cs1 => matchTemplate rest cs1 := by
  rw [matchTemplate]

theorem routerMatch_W (m W : String) (hWne : W.data ≠ [])
    (hWd : ∀ c ∈ W.data, isDigit c = true) :
    routerMatch routes ⟨m, "/" ++ W⟩ false
      = if m = "GET" then .found .serveImageRequest [("width", W)] else .methodMismatch := by
  have e1 : isDigit '/' = false := by decide
  have e2 : isDigit 'x' = false := by decide
  have e3 : isDigit '.' = false := by decide
  by_cases hm : m = "GET" <;>
  simp [routes, routerMatch, stripLit, String.data_append, data_slash, data_x, data_jpg,
    matchTemplate_nil_nil, matchTemplate_nil_of_ne, matchTemplate_lit, hWne, hm,
    matchTemplate_digits_end _ _ _ hWne hWd, matchTemplate_digits_cons _ _ _ hWne hWd _ _ e1,
    matchTemplate_digits_cons _ _ _ hWne hWd _ _ e2,
    matchTemplate_digits_cons _ _ _ hWne hWd _ _ e3]

theorem routerMatch_Wjpg (m W : String) (hWne : W.data ≠ [])
    (hWd : ∀ c ∈ W.data, isDigit c = true) :
    routerMatch routes ⟨m, "/" ++ W ++ ".jpg"⟩ false
      = if m = "GET" then .found .serveImageRequest [("width", W)] else .methodMismatch := by
  have e1 : isDigit '/' = false := by decide
  have e2 : isDigit 'x' = false := by decide
  have e3 : isDigit '.' = false := by decide
  by_cases hm : m = "GET" <;>
  simp [routes, routerMatch, stripLit, String.data_append, data_slash, data_x, data_jpg,
    matchTemplate_nil_nil, matchTemplate_nil_of_ne, matchTemplate_lit, hWne, hm,
    matchTemplate_digits_end _ _ _ hWne hWd, matchTemplate_digits_cons _ _ _ hWne hWd _ _ e1,
    matchTemplate_digits_cons _ _ _ hWne hWd _ _ e2,
    matchTemplate_digits_cons _ _ _ hWne hWd _ _ e3]

theorem routerMatch_WslashH (m W H : String) (hWne : W.data ≠ [])
    (hWd : ∀ c ∈ W.data, isDigit c = true) (hHne : H.data ≠ [])
    (hHd : ∀ c ∈ H.data, isDigit c = true) :
    routerMatch routes ⟨m, "/" ++ W ++ "/" ++ H⟩ false
      = if m = "GET" then .found .serveImageRequest [("width", W), ("height", H)] else .methodMismatch := by
  have e1 : isDigit '/' = false := by decide
  have e2 : isDigit 'x' = false := by decide
  have e3 : isDigit '.' = false := by decide
  by_cases hm : m = "GET" <;>
  simp [routes, routerMatch, stripLit, String.data_append, data_slash, data_x, data_jpg,
    matchTemplate_nil_nil, matchTemplate_nil_of_ne, matchTemplate_lit, hWne, hm,
    matchTemplate_digits_end _ _ _ hWne hWd, matchTemplate_digits_cons _ _ _ hWne hWd _ _ e1,
    matchTemplate_digits_cons _ _ _ hWne hWd _ _ e2,
    matchTemplate_digits_cons _ _ _ hWne hWd _ _ e3, hHne,
    matchTemplate_digits_end _ _ _ hHne hHd, matchTemplate_digits_cons _ _ _ hHne hHd _ _ e1,
    matchTemplate_digits_cons _ _ _ hHne hHd _ _ e3]

theorem routerMatch_WxH (m W H : String) (hWne : W.data ≠ [])
    (hWd : ∀ c ∈ W.data, isDigit c = true) (hHne : H.data ≠ [])
    (hHd : ∀ c ∈ H.data, isDigit c = true) :
    routerMatch routes ⟨m, "/" ++ W ++ "x" ++ H⟩ false
      = if m = "GET" then .found .serveImageRequest [("width", W), ("height", H)] else .methodMismatch := by
  have e1 : isDigit '/' = false := by decide
  have e2 : isDigit 'x' = false := by decide
  have e3 : isDigit '.' = false := by decide
  by_cases hm : m = "GET" <;>
  simp [routes, routerMatch, stripLit, String.data_append, data_slash, data_x, data_jpg,
    matchTemplate_nil_nil, matchTemplate_nil_of_ne, matchTemplate_lit, hWne, hm,
    matchTemplate_digits_end _ _ _ hWne hWd, matchTemplate_digits_cons _ _ _ hWne hWd _ _ e1,
    matchTemplate_digits_cons _ _ _ hWne hWd _ _ e2,
    matchTemplate_digits_cons _ _ _ hWne hWd _ _ e3, hHne,
    matchTemplate_digits_end _ _ _ hHne hHd, matchTemplate_digits_cons _ _ _ hHne hHd _ _ e1,
    matchTemplate_digits_cons _ _ _ hHne hHd _ _ e3]

theorem routerMatch_WslashHjpg (m W H : String) (hWne : W.data ≠ [])
    (hWd : ∀ c ∈ W.data, isDigit c = true) (hHne : H.data ≠ [])
    (hHd : ∀ c ∈ H.data, isDigit c = true) :
    routerMatch routes ⟨m, "/" ++ W ++ "/" ++ H ++ ".jpg"⟩ false
      = if m = "GET" then .found .serveImageRequest [("width", W), ("height", H)] else .methodMismatch := by
  have e1 : isDigit '/' = false := by decide
  have e2 : isDigit 'x' = false := by decide
  have e3 : isDigit '.' = false := by decide
  by_cases hm : m = "GET" <;>
  simp [routes, routerMatch, stripLit, String.data_append, data_slash, data_x, data_jpg,
    matchTemplate_nil_nil, matchTemplate_nil_of_ne, matchTemplate_lit, hWne, hm,
    matchTemplate_digits_end _ _ _ hWne hWd, matchTemplate_digits_cons _ _ _ hWne hWd _ _ e1,
    matchTemplate_digits_cons _ _ _ hWne hWd _ _ e2,
    matchTemplate_digits_cons _ _ _ hWne hWd _ _ e3, hHne,
    matchTemplate_digits_end _ _ _ hHne hHd, matchTemplate_digits_cons _ _ _ hHne hHd _ _ e1,
    matchTemplate_digits_cons _ _ _ hHne hHd _ _ e3]

theorem routerMatch_WxHjpg (m W H : String) (hWne : W.data ≠ [])
    (hWd : ∀ c ∈ W.data, isDigit c = true) (hHne : H.data ≠ [])
    (hHd : ∀ c ∈ H.data, isDigit c = true) :
    routerMatch routes ⟨m, "/" ++ W ++ "x" ++ H ++ ".jpg"⟩ false
      = if m = "GET" then .found .serveImageRequest [("width", W), ("height", H)] else .methodMismatch := by
  have e1 : isDigit '/' = false := by decide
  have e2 : isDigit 'x' = false := by decide
  have e3 : isDigit '.' = false := by decide
  by_cases hm : m = "GET" <;>
  simp [routes, routerMatch, stripLit, String.data_append, data_slash, data_x, data_jpg,
    matchTemplate_nil_nil, matchTemplate_nil_of_ne, matchTemplate_lit, hWne, hm,
    matchTemplate_digits_end _ _ _ hWne hWd, matchTemplate_digits_cons _ _ _ hWne hWd _ _ e1,
    matchTemplate_digits_cons _ _ _ hWne hWd _ _ e2,
    matchTemplate_digits_cons _ _ _ hWne hWd _ _ e3, hHne,
    matchTemplate_digits_end _ _ _ hHne hHd, matchTemplate_digits_cons _ _ _ hHne hHd _ _ e1,
    matchTemplate_digits_cons _ _ _ hHne hHd _ _ e3]

/-- Every variable the router captures is a non-empty string of digits. -/
theorem matchTemplate_captures (segs : List Seg) :
    ∀ (cs : List Char) (vars : Vars), matchTemplate segs cs = some vars →
      ∀ e ∈ vars, e.2.data ≠ [] ∧ ∀ c ∈ e.2.data, isDigit c = true := by
  induction segs with
  | nil =>
    intro cs vars h e he
    cases cs with
    | nil =>
      rw [matchTemplate_nil_nil] at h
      injection h with h
      rw [← h] at he
      exact absurd he (List.not_mem_nil _)
    | cons c t =>
      rw [matchTemplate_nil_of_ne _ (List.cons_ne_nil _ _)] at h
      exact absurd h (by simp)
  | cons seg rest ih =>
    intro cs vars h e he
    cases seg with
    | lit s =>
      rw [matchTemplate_lit] at h
      cases hs : stripLit s.data cs with
      | none => rw [hs] at h; exact absurd h (by simp)
      | some cs1 =>
        rw [hs] at h
        exact ih cs1 vars h e he
    | digits name =>
      rw [matchTemplate] at h
      by_cases hds : cs.takeWhile isDigit = []
      · simp only [hds, if_true] at h
        exact absurd h (by simp)
      · simp only [hds, if_false] at h
        cases hr : matchTemplate rest (cs.dropWhile isDigit) with
        | none => rw [hr] at h; exact absurd h (by simp)
        | some vars1 =>
          rw [hr] at h
          injection h with h
          rw [← h] at he
          rcases List.mem_cons.mp he with he1 | he1
          · rw [he1]
            refine ⟨hds, ?_⟩
            intro c hc
            exact (List.mem_takeWhile_imp hc)
          · exact ih _ vars1 hr e he1

/-- A route found by the router is one of the table whose template matched. -/
theorem routerMatch_found (rs : List Route) (req : Request) :
    ∀ (b : Bool) (h : Handler) (vars : Vars), routerMatch rs req b = .found h vars →
      ∃ r ∈ rs, matchTemplate r.template req.Path.data = some vars ∧ r.handler = h := by
  induction rs with
  | nil =>
    intro b h vars hm
    rw [routerMatch] at hm
    split at hm <;> exact absurd hm (by simp)
  | cons r rs ih =>
    intro b h vars hm
    rw [routerMatch] at hm
    cases ht : matchTemplate r.template req.Path.data with
    | none =>
      rw [ht] at hm
      obtain ⟨r1, hr1, h1⟩ := ih b h vars hm
      exact ⟨r1, List.mem_cons_of_mem _ hr1, h1⟩
    | some vars1 =>
      rw [ht] at hm
      dsimp only at hm
      cases hms : r.methods with
      | none =>
        rw [hms] at hm
        dsimp only at hm
        injection hm with h1 h2
        exact ⟨r, List.mem_cons_self _ _, by rw [ht, h2], h1⟩
      | some ms =>
        rw [hms] at hm
        dsimp only at hm
        by_cases hin : req.Method ∈ ms
        · rw [if_pos hin] at hm
          injection hm with h1 h2
          exact ⟨r, List.mem_cons_self _ _, by rw [ht, h2], h1⟩
        · rw [if_neg hin] at hm
          obtain ⟨r1, hr1, h1⟩ := ih true h vars hm
          exact ⟨r1, List.mem_cons_of_mem _ hr1, h1⟩

/-- When no template matches the path the router keeps its mismatch flag. -/
theorem routerMatch_no_template (rs : List Route) (req : Request) :
    ∀ b : Bool, (∀ r ∈ rs, matchTemplate r.template req.Path.data = none) →
      routerMatch rs req b = if b then .methodMismatch else .notFound := by
  induction rs with
  | nil => intro b _; rw [routerMatch]
  | cons r rs ih =>
    intro b h
    rw [routerMatch, h r (List.mem_cons_self _ _)]
    exact ih b fun r1 hr1 => h r1 (List.mem_cons_of_mem _ hr1)

/-- When every route is limited to methods other than the request method, the
router reports a mismatch as soon as one template matches the path. -/
theorem routerMatch_wrong_method (rs : List Route) (req : Request) :
    ∀ b : Bool, (∀ r ∈ rs, ∃ ms, r.methods = some ms ∧ req.Method ∉ ms) →
      (b = true ∨ ∃ r ∈ rs, (matchTemplate r.template req.Path.data).isSome = true) →
      routerMatch rs req b = .methodMismatch := by
  induction rs with
  | nil =>
    intro b _ h
    rcases h with h | ⟨r, hr, _⟩
    · rw [routerMatch, h]; rfl
    · exact absurd hr (List.not_mem_nil _)
  | cons r rs ih =>
    intro b hall h
    obtain ⟨ms, hms, hnot⟩ := hall r (List.mem_cons_self _ _)
    have hrest : ∀ r1 ∈ rs, ∃ ms, r1.methods = some ms ∧ req.Method ∉ ms :=
      fun r1 hr1 => hall r1 (List.mem_cons_of_mem _ hr1)
    rw [routerMatch]
    cases ht : matchTemplate r.template req.Path.data with
    | none =>
      dsimp only
      apply ih b hrest
      rcases h with h | ⟨r1, hr1, hsome⟩
      · exact Or.inl h
      · rcases List.mem_cons.mp hr1 with e | e
        · rw [e, ht] at hsome; exact absurd hsome (by simp)
        · exact Or.inr ⟨r1, e, hsome⟩
    | some vars =>
      dsimp only
      rw [hms]
      dsimp only
      rw [if_neg hnot]
      exact ih true hrest (Or.inl rfl)

/-- A path that an image template matches is not the path of the main page. -/
theorem mainPage_none_of_image (name : String) (rest : List Seg) (p : List Char)
    (h : (matchTemplate (.lit "/" :: .digits name :: rest) p).isSome = true) :
    matchTemplate [.lit "/"] p = none := by
  rw [matchTemplate_lit, data_slash] at h ⊢
  cases p with
  | nil => simp [stripLit]
  | cons c t =>
    by_cases hc : '/' = c
    · simp only [stripLit, hc, if_true] at h ⊢
      cases t with
      | nil =>
        rw [matchTemplate] at h
        simp at h
      | cons d t1 => exact matchTemplate_nil_of_ne _ (List.cons_ne_nil _ _)
    · simp [stripLit, hc]

/-! ## Lemmas on cleanPath -/

theorem splitSlash_noslash (s : List Char) (h : '/' ∉ s) : splitSlash s = [s] := by
  induction s with
  | nil => rfl
  | cons c cs ih =>
    have hc : ¬ (c = '/') := fun e => h (by rw [e]; exact List.mem_cons_self _ _)
    have hcs : '/' ∉ cs := fun e => h (List.mem_cons_of_mem _ e)
    rw [splitSlash, if_neg hc, ih hcs]

theorem splitSlash_append (s : List Char) (h : '/' ∉ s) (t : List Char) :
    splitSlash (s ++ '/' :: t) = s :: splitSlash t := by
  induction s with
  | nil => simp [splitSlash]
  | cons c cs ih =>
    have hc : ¬ (c = '/') := fun e => h (by rw [e]; exact List.mem_cons_self _ _)
    have hcs : '/' ∉ cs := fun e => h (List.mem_cons_of_mem _ e)
    rw [List.cons_append, splitSlash, if_neg hc, ih hcs]

theorem endsWithSlash_noslash (s : List Char) (h : '/' ∉ s) : endsWithSlash s = false := by
  induction s with
  | nil => rfl
  | cons c cs ih =>
    have hc : ¬ (c = '/') := fun e => h (by rw [e]; exact List.mem_cons_self _ _)
    have hcs : '/' ∉ cs := fun e => h (List.mem_cons_of_mem _ e)
    cases cs with
    | nil => simp [endsWithSlash, hc]
    | cons d ds =>
      rw [endsWithSlash]
      exact ih hcs

theorem endsWithSlash_append (s t : List Char) (ht : t ≠ []) :
    endsWithSlash (s ++ t) = endsWithSlash t := by
  induction s with
  | nil => rfl
  | cons c cs ih =>
    cases hcs : cs ++ t with
    | nil =>
      have := List.append_eq_nil.mp hcs
      exact absurd this.2 ht
    | cons d ds =>
      rw [List.cons_append, hcs, endsWithSlash, ← hcs]
      exact ih

/-- An element that starts with a digit is none of the elements `path.Clean`
drops. -/
theorem digit_element (d : Char) (t : List Char) (hd : isDigit d = true) :
    ¬ (d :: t = [] ∨ d :: t = ['.']) ∧ ¬ (d :: t = ['.', '.']) := by
  simp only [isDigit, decide_eq_true_eq] at hd
  have hne : ¬ (d = '.') := by
    intro e; rw [e] at hd; revert hd; decide
  constructor
  · rintro (e | e)
    · exact absurd e (List.cons_ne_nil _ _)
    · injection e with e1 _
      exact hne e1
  · intro e
    injection e with e1 _
    exact hne e1

/-- A path of one element that starts with a digit is clean. -/
theorem cleanPath_one (P : String) (d : Char) (t : List Char) (hP : P.data = '/' :: d :: t)
    (hd : isDigit d = true) (hs : '/' ∉ d :: t) : cleanPath P = P := by
  obtain ⟨h1, h2⟩ := digit_element d t hd
  have hsplit : splitSlash ('/' :: d :: t) = [[], d :: t] := by
    rw [splitSlash, if_pos rfl, splitSlash_noslash _ hs]
  have hclean : pathClean ('/' :: d :: t) = '/' :: d :: t := by
    unfold pathClean
    rw [hsplit]
    simp only [cleanElems, true_or, if_true, h1, h2, if_false, List.reverse_cons,
      List.reverse_nil, List.nil_append, joinSlash]
  have hend : endsWithSlash ('/' :: d :: t) = false := by
    rw [endsWithSlash]
    exact endsWithSlash_noslash _ hs
  obtain ⟨data⟩ := P
  simp only at hP
  subst hP
  simp [cleanPath, hclean, hend]

/-- A path of two elements that start with a digit is clean. -/
theorem cleanPath_two (P : String) (d1 : Char) (t1 : List Char) (d2 : Char) (t2 : List Char)
    (hP : P.data = '/' :: ((d1 :: t1) ++ '/' :: d2 :: t2))
    (hd1 : isDigit d1 = true) (hs1 : '/' ∉ d1 :: t1)
    (hd2 : isDigit d2 = true) (hs2 : '/' ∉ d2 :: t2) : cleanPath P = P := by
  obtain ⟨a1, a2⟩ := digit_element d1 t1 hd1
  obtain ⟨b1, b2⟩ := digit_element d2 t2 hd2
  have hsplit : splitSlash ('/' :: ((d1 :: t1) ++ '/' :: d2 :: t2))
      = [[], d1 :: t1, d2 :: t2] := by
    rw [splitSlash, if_pos rfl, splitSlash_append _ hs1, splitSlash_noslash _ hs2]
  have hclean : pathClean ('/' :: ((d1 :: t1) ++ '/' :: d2 :: t2))
      = '/' :: ((d1 :: t1) ++ '/' :: d2 :: t2) := by
    unfold pathClean
    rw [hsplit]
    simp only [cleanElems, true_or, if_true, a1, a2, b1, b2, if_false, List.reverse_cons,
      List.reverse_nil, List.nil_append, List.cons_append, joinSlash]
  have hend : endsWithSlash ('/' :: ((d1 :: t1) ++ '/' :: d2 :: t2)) = false := by
    have e : '/' :: ((d1 :: t1) ++ '/' :: d2 :: t2)
        = ('/' :: ((d1 :: t1) ++ ['/'])) ++ (d2 :: t2) := by simp
    rw [e, endsWithSlash_append _ _ (List.cons_ne_nil _ _)]
    exact endsWithSlash_noslash _ hs2
  obtain ⟨data⟩ := P
  simp only at hP
  subst hP
  simp only [cleanPath, List.head?_cons, if_true, hclean, hend]
  simp

/-- A non-empty string of digits, as its first digit and the rest. -/
theorem digits_cons (W : String) (hne : W.data ≠ []) (hd : ∀ c ∈ W.data, isDigit c = true) :
    ∃ d t, W.data = d :: t ∧ isDigit d = true ∧ '/' ∉ W.data := by
  cases hW : W.data with
  | nil => exact absurd hW hne
  | cons d t =>
    refine ⟨d, t, rfl, hd d (by rw [hW]; exact List.mem_cons_self _ _), ?_⟩
    intro hin
    have := hd '/' (by rw [hW]; exact hin)
    revert this
    decide

/-! ## Lemmas on the paths of the image routes -/

theorem noslash_jpg (l : List Char) (hl : '/' ∉ l) : '/' ∉ l ++ ['.', 'j', 'p', 'g'] := by
  intro hin
  rcases List.mem_append.mp hin with h | h
  · exact hl h
  · revert h; decide

theorem noslash_x (l k : List Char) (hl : '/' ∉ l) (hk : '/' ∉ k) : '/' ∉ l ++ 'x' :: k := by
  intro hin
  rcases List.mem_append.mp hin with h | h
  · exact hl h
  · rcases List.mem_cons.mp h with h | h
    · revert h; decide
    · exact hk h

theorem cleanPath_W (W : String) (hWne : W.data ≠ [])
    (hWd : ∀ c ∈ W.data, isDigit c = true) :
    cleanPath ("/" ++ W) = "/" ++ W := by
  obtain ⟨d, t, hW, hd, hWs⟩ := digits_cons W hWne hWd
  rw [hW] at hWs
  exact cleanPath_one _ d t (by simp [String.data_append, hW, data_slash]) hd hWs

theorem ServeHTTP_W (compress : Compressor) (m W : String) (hWne : W.data ≠ [])
    (hWd : ∀ c ∈ W.data, isDigit c = true) :
    ServeHTTP compress ⟨m, "/" ++ W⟩
      = if m = "GET" then serveImageRequest compress ResponseWriter.fresh [("width", W)]
        else .response (methodNotAllowedHandler ResponseWriter.fresh) := by
  unfold ServeHTTP
  rw [if_neg (by rw [cleanPath_W W hWne hWd]; exact fun h => h rfl), routerMatch_W m W hWne hWd]
  by_cases hm : m = "GET"
  · rw [if_pos hm, if_pos hm]
  · rw [if_neg hm, if_neg hm]

theorem cleanPath_Wjpg (W : String) (hWne : W.data ≠ [])
    (hWd : ∀ c ∈ W.data, isDigit c = true) :
    cleanPath ("/" ++ W ++ ".jpg") = "/" ++ W ++ ".jpg" := by
  obtain ⟨d, t, hW, hd, hWs⟩ := digits_cons W hWne hWd
  rw [hW] at hWs
  exact cleanPath_one _ d (t ++ ['.', 'j', 'p', 'g']) (by simp [String.data_append, hW, data_slash, data_jpg]) hd (noslash_jpg _ hWs)

theorem ServeHTTP_Wjpg (compress : Compressor) (m W : String) (hWne : W.data ≠ [])
    (hWd : ∀ c ∈ W.data, isDigit c = true) :
    ServeHTTP compress ⟨m, "/" ++ W ++ ".jpg"⟩
      = if m = "GET" then serveImageRequest compress ResponseWriter.fresh [("width", W)]
        else .response (methodNotAllowedHandler ResponseWriter.fresh) := by
  unfold ServeHTTP
  rw [if_neg (by rw [cleanPath_Wjpg W hWne hWd]; exact fun h => h rfl), routerMatch_Wjpg m W hWne hWd]
  by_cases hm : m = "GET"
  · rw [if_pos hm, if_pos hm]
  · rw [if_neg hm, if_neg hm]

theorem cleanPath_WslashH (W H : String) (hWne : W.data ≠ [])
    (hWd : ∀ c ∈ W.data, isDigit c = true) (hHne : H.data ≠ [])
    (hHd : ∀ c ∈ H.data, isDigit c = true) :
    cleanPath ("/" ++ W ++ "/" ++ H) = "/" ++ W ++ "/" ++ H := by
  obtain ⟨d, t, hW, hd, hWs⟩ := digits_cons W hWne hWd
  rw [hW] at hWs
  obtain ⟨e, u, hH, he, hHs⟩ := digits_cons H hHne hHd
  rw [hH] at hHs
  exact cleanPath_two _ d t e u (by simp [String.data_append, hW, hH, data_slash]) hd hWs he hHs

theorem ServeHTTP_WslashH (compress : Compressor) (m W H : String) (hWne : W.data ≠ [])
    (hWd : ∀ c ∈ W.data, isDigit c = true) (hHne : H.data ≠ [])
    (hHd : ∀ c ∈ H.data, isDigit c = true) :
    ServeHTTP compress ⟨m, "/" ++ W ++ "/" ++ H⟩
      = if m = "GET" then serveImageRequest compress ResponseWriter.fresh [("width", W), ("height", H)]
        else .response (methodNotAllowedHandler ResponseWriter.fresh) := by
  unfold ServeHTTP
  rw [if_neg (by rw [cleanPath_WslashH W H hWne hWd hHne hHd]; exact fun h => h rfl), routerMatch_WslashH m W H hWne hWd hHne hHd]
  by_cases hm : m = "GET"
  · rw [if_pos hm, if_pos hm]
  · rw [if_neg hm, if_neg hm]

theorem cleanPath_WxH (W H : String) (hWne : W.data ≠ [])
    (hWd : ∀ c ∈ W.data, isDigit c = true) (hHne : H.data ≠ [])
    (hHd : ∀ c ∈ H.data, isDigit c = true) :
    cleanPath ("/" ++ W ++ "x" ++ H) = "/" ++ W ++ "x" ++ H := by
  obtain ⟨d, t, hW, hd, hWs⟩ := digits_cons W hWne hWd
  rw [hW] at hWs
  obtain ⟨e, u, hH, he, hHs⟩ := digits_cons H hHne hHd
  rw [hH] at hHs
  exact cleanPath_one _ d (t ++ 'x' :: e :: u) (by simp [String.data_append, hW, hH, data_slash, data_x]) hd (noslash_x _ _ hWs hHs)

theorem ServeHTTP_WxH (compress : Compressor) (m W H : String) (hWne : W.data ≠ [])
    (hWd : ∀ c ∈ W.data, isDigit c = true) (hHne : H.data ≠ [])
    (hHd : ∀ c ∈ H.data, isDigit c = true) :
    ServeHTTP compress ⟨m, "/" ++ W ++ "x" ++ H⟩
      = if m = "GET" then serveImageRequest compress ResponseWriter.fresh [("width", W), ("height", H)]
        else .response (methodNotAllowedHandler ResponseWriter.fresh) := by
  unfold ServeHTTP
  rw [if_neg (by rw [cleanPath_WxH W H hWne hWd hHne hHd]; exact fun h => h rfl), routerMatch_WxH m W H hWne hWd hHne hHd]
  by_cases hm : m = "GET"
  · rw [if_pos hm, if_pos hm]
  · rw [if_neg hm, if_neg hm]

theorem cleanPath_WslashHjpg (W H : String) (hWne : W.data ≠ [])
    (hWd : ∀ c ∈ W.data, isDigit c = true) (hHne : H.data ≠ [])
    (hHd : ∀ c ∈ H.data, isDigit c = true) :
    cleanPath ("/" ++ W ++ "/" ++ H ++ ".jpg") = "/" ++ W ++ "/" ++ H ++ ".jpg" := by
  obtain ⟨d, t, hW, hd, hWs⟩ := digits_cons W hWne hWd
  rw [hW] at hWs
  obtain ⟨e, u, hH, he, hHs⟩ := digits_cons H hHne hHd
  rw [hH] at hHs
  exact cleanPath_two _ d t e (u ++ ['.', 'j', 'p', 'g']) (by simp [String.data_append, hW, hH, data_slash, data_jpg]) hd hWs he (noslash_jpg _ hHs)

theorem ServeHTTP_WslashHjpg (compress : Compressor) (m W H : String) (hWne : W.data ≠ [])
    (hWd : ∀ c ∈ W.data, isDigit c = true) (hHne : H.data ≠ [])
    (hHd : ∀ c ∈ H.data, isDigit c = true) :
    ServeHTTP compress ⟨m, "/" ++ W ++ "/" ++ H ++ ".jpg"⟩
      = if m = "GET" then serveImageRequest compress ResponseWriter.fresh [("width", W), ("height", H)]
        else .response (methodNotAllowedHandler ResponseWriter.fresh) := by
  unfold ServeHTTP
  rw [if_neg (by rw [cleanPath_WslashHjpg W H hWne hWd hHne hHd]; exact fun h => h rfl), routerMatch_WslashHjpg m W H hWne hWd hHne hHd]
  by_cases hm : m = "GET"
  · rw [if_pos hm, if_pos hm]
  · rw [if_neg hm, if_neg hm]

theorem cleanPath_WxHjpg (W H : String) (hWne : W.data ≠ [])
    (hWd : ∀ c ∈ W.data, isDigit c = true) (hHne : H.data ≠ [])
    (hHd : ∀ c ∈ H.data, isDigit c = true) :
    cleanPath ("/" ++ W ++ "x" ++ H ++ ".jpg") = "/" ++ W ++ "x" ++ H ++ ".jpg" := by
  obtain ⟨d, t, hW, hd, hWs⟩ := digits_cons W hWne hWd
  rw [hW] at hWs
  obtain ⟨e, u, hH, he, hHs⟩ := digits_cons H hHne hHd
  rw [hH] at hHs
  exact cleanPath_one _ d (t ++ 'x' :: e :: (u ++ ['.', 'j', 'p', 'g'])) (by simp [String.data_append, hW, hH, data_slash, data_x, data_jpg]) hd (noslash_x _ _ hWs (noslash_jpg _ hHs))

theorem ServeHTTP_WxHjpg (compress : Compressor) (m W H : String) (hWne : W.data ≠ [])
    (hWd : ∀ c ∈ W.data, isDigit c = true) (hHne : H.data ≠ [])
    (hHd : ∀ c ∈ H.data, isDigit c = true) :
    ServeHTTP compress ⟨m, "/" ++ W ++ "x" ++ H ++ ".jpg"⟩
      = if m = "GET" then serveImageRequest compress ResponseWriter.fresh [("width", W), ("height", H)]
        else .response (methodNotAllowedHandler ResponseWriter.fresh) := by
  unfold ServeHTTP
  rw [if_neg (by rw [cleanPath_WxHjpg W H hWne hWd hHne hHd]; exact fun h => h rfl), routerMatch_WxHjpg m W H hWne hWd hHne hHd]
  by_cases hm : m = "GET"
  · rw [if_pos hm, if_pos hm]
  · rw [if_neg hm, if_neg hm]

/-! ## The claims on generateImage -/

/-- C1: for positive `w` and `h`, each at most 10^9 (the extent of a uniform
image, and small enough for the buffer length `4 * w * h` to fit an `int`),
`generateImage w h` returns no error and a bitmap whose bounds are exactly
`(0,0)-(w,h)`, of width `w` and height `h`, with `4 * w * h` pixel bytes, and
every pixel of it is RGBA `(0xCE, 0xCE, 0xCE, 0xFF)`. -/
theorem generateImage_positive_filled (w h : Int) (hw : 0 < w) (hh : 0 < h)
    (hwb : w ≤ 1000000000) (hhb : h ≤ 1000000000) :
    ∃ img, generateImage w h = .ok img ∧
      img.Bounds = ⟨⟨0, 0⟩, ⟨w, h⟩⟩ ∧ img.Bounds.Dx = w ∧ img.Bounds.Dy = h ∧
      (img.Pix.length : Int) = 4 * w * h ∧
      ∀ x y : Int, 0 ≤ x → x < w → 0 ≤ y → y < h →
        img.RGBAAt x y = some ⟨0xCE, 0xCE, 0xCE, 0xFF⟩ := by
  have hfit : 4 * w * h ≤ 2 ^ 63 - 1 := by nlinarith
  have hgen := generateImage_ok w h hw hh hfit
  rw [Draw_NewRGBA w h hw hh hwb hhb] at hgen
  refine ⟨_, hgen, rfl, by simp [RGBA.Bounds, Rectangle.Dx], by simp [RGBA.Bounds, Rectangle.Dy],
    ?_, ?_⟩
  · simp only [length_flatten_replicate, List.length_cons, List.length_nil]
    push_cast
    rw [Int.toNat_of_nonneg (by omega), Int.toNat_of_nonneg (by omega)]
    ring
  · intro x y hx0 hx hy0 hy
    exact RGBAAt_uniform w h hw hh _ _ _ _ x y hx0 hx hy0 hy

/-- Witness of C1: the 3 by 2 image. -/
theorem generateImage_positive_filled_witness :
    ∃ img, generateImage 3 2 = .ok img ∧
      img.Bounds = ⟨⟨0, 0⟩, ⟨3, 2⟩⟩ ∧ img.Bounds.Dx = 3 ∧ img.Bounds.Dy = 2 ∧
      (img.Pix.length : Int) = 4 * 3 * 2 ∧
      ∀ x y : Int, 0 ≤ x → x < 3 → 0 ≤ y → y < 2 →
        img.RGBAAt x y = some ⟨0xCE, 0xCE, 0xCE, 0xFF⟩ :=
  generateImage_positive_filled 3 2 (by decide) (by decide) (by decide) (by decide)

/-- The bitmap `generateImage` returns for positive dimensions whose buffer
length fits an `int`: its bounds, stride and buffer length. -/
theorem generateImage_bitmap (w h : Int) (hw : 0 < w) (hh : 0 < h)
    (hfit : 4 * w * h ≤ 2 ^ 63 - 1) :
    ∃ img, generateImage w h = .ok img ∧ img.Bounds = ⟨⟨0, 0⟩, ⟨w, h⟩⟩ ∧
      img.Bounds.Dx = w ∧ img.Bounds.Dy = h ∧ img.Stride = 4 * w ∧
      (img.Pix.length : Int) = 4 * w * h := by
  refine ⟨_, generateImage_ok w h hw hh hfit, ?_, ?_, ?_, ?_, ?_⟩
  · unfold RGBA.Bounds
    rw [(Draw_Rect _ _ _ _).1]
  · unfold RGBA.Bounds
    rw [(Draw_Rect _ _ _ _).1]
    simp [Rectangle.Dx]
  · unfold RGBA.Bounds
    rw [(Draw_Rect _ _ _ _).1]
    simp [Rectangle.Dy]
  · rw [(Draw_Rect _ _ _ _).2]
  · rw [Draw_length w h hw hh]
    exact Int.toNat_of_nonneg (by nlinarith)

/-- The dimensions `generateImage` rejects. -/
theorem generateImage_rejects (w h : Int) (hc : w < 0 ∨ h < 0 ∨ (w = 0 ∧ h = 0)) :
    generateImage w h = .error errorInvalidDimension := by
  unfold generateImage
  by_cases h1 : w < 0 ∨ h < 0
  · rw [if_pos h1]
  · rw [if_neg h1]
    have h2 : w = 0 ∧ h = 0 := by omega
    rw [if_pos h2]

/-- For dimensions that pass the checks `generateImage` returns no error. -/
theorem generateImage_accepts (w h : Int) (hc : ¬ (w < 0 ∨ h < 0 ∨ (w = 0 ∧ h = 0)))
    (e : Error) : generateImage w h ≠ .error e := by
  rw [generateImage_checked w h (by omega) (by omega)]
  split <;> simp

/-- The only error of `generateImage`. -/
theorem generateImage_error_eq (w h : Int) (e : Error)
    (he : generateImage w h = .error e) : e = errorInvalidDimension := by
  by_cases hc : w < 0 ∨ h < 0 ∨ (w = 0 ∧ h = 0)
  · rw [generateImage_rejects w h hc] at he
    injection he with he
    exact he.symm
  · exact absurd he (generateImage_accepts w h hc e)

/-- C2, as amended: `generateImage w h` returns an error exactly when `w < 0`,
`h < 0` or both are zero; the error is then `errorInvalidDimension`, whose
message is "width and height values must be positive", whatever the cause,
and no bitmap is returned.  `generateImage 0 0`, `generateImage (-1) 5` and
`generateImage 5 (-1)` return that error.  For dimensions that pass the
checks, and whose buffer length (`4 * w * h`, after the square fallback) fits
an `int`, a bitmap is returned. -/
theorem generateImage_error_iff (w h : Int) :
    (generateImage w h = .error errorInvalidDimension ↔ (w < 0 ∨ h < 0 ∨ (w = 0 ∧ h = 0))) ∧
    ((∃ e, generateImage w h = .error e) ↔ (w < 0 ∨ h < 0 ∨ (w = 0 ∧ h = 0))) ∧
    (∀ e, generateImage w h = .error e → e = errorInvalidDimension) ∧
    ((w < 0 ∨ h < 0 ∨ (w = 0 ∧ h = 0)) → ∀ img, generateImage w h ≠ .ok img) ∧
    errorInvalidDimension.message = "width and height values must be positive" ∧
    generateImage 0 0 = .error errorInvalidDimension ∧
    generateImage (-1) 5 = .error errorInvalidDimension ∧
    generateImage 5 (-1) = .error errorInvalidDimension ∧
    (¬ (w < 0 ∨ h < 0 ∨ (w = 0 ∧ h = 0)) →
      4 * (if w = 0 then h else w) * (if h = 0 then w else h) ≤ 2 ^ 63 - 1 →
      ∃ img, generateImage w h = .ok img ∧
        img.Bounds = ⟨⟨0, 0⟩, ⟨if w = 0 then h else w, if h = 0 then w else h⟩⟩) := by
  refine ⟨⟨?_, generateImage_rejects w h⟩, ⟨?_, fun hc => ⟨_, generateImage_rejects w h hc⟩⟩,
    generateImage_error_eq w h, ?_, rfl, by decide, by decide, by decide, ?_⟩
  · intro he
    by_contra hc
    exact generateImage_accepts w h hc _ he
  · rintro ⟨e, he⟩
    by_contra hc
    exact generateImage_accepts w h hc _ he
  · intro hc img hi
    rw [generateImage_rejects w h hc] at hi
    exact absurd hi (by simp)
  · intro hc hfit
    by_cases hw : w = 0
    · have hh : 0 < h := by omega
      have hh0 : ¬ (h = 0) := by omega
      simp only [hw, hh0, if_true, if_false] at hfit ⊢
      obtain ⟨img, hg, hb, _⟩ := generateImage_bitmap h h hh hh hfit
      exact ⟨img, by rw [(generateImage_zero h hh).1]; exact hg, hb⟩
    · by_cases hh : h = 0
      · have hw' : 0 < w := by omega
        simp only [hw, hh, if_true, if_false] at hfit ⊢
        obtain ⟨img, hg, hb, _⟩ := generateImage_bitmap w w hw' hw' hfit
        exact ⟨img, by rw [(generateImage_zero w hw').2]; exact hg, hb⟩
      · simp only [hw, hh, if_false] at hfit ⊢
        obtain ⟨img, hg, hb, _⟩ := generateImage_bitmap w h (by omega) (by omega) hfit
        exact ⟨img, hg, hb⟩

/-- Witness of C2 as amended: the dimensions 0 by 0 and 0 by 7. -/
theorem generateImage_error_iff_witness :
    (∀ img, generateImage 0 0 ≠ .ok img) ∧
    ∃ img, generateImage 0 7 = .ok img ∧
      img.Bounds = ⟨⟨0, 0⟩, ⟨if (0 : Int) = 0 then 7 else 0, if (7 : Int) = 0 then 0 else 7⟩⟩ :=
  ⟨(generateImage_error_iff 0 0).2.2.2.1 (by decide),
    (generateImage_error_iff 0 7).2.2.2.2.2.2.2.2 (by decide) (by decide)⟩

/-- Counterexample to C2 as stated: for the width 4294967296 and the height 0
none of `w < 0`, `h < 0`, `w = 0 and h = 0` holds, and `generateImage` fails
all the same: it returns neither a bitmap nor `errorInvalidDimension`, it
panics in `image.NewRGBA`. -/
theorem generateImage_fails_unrejected :
    ¬ ((4294967296 : Int) < 0 ∨ (0 : Int) < 0 ∨ ((4294967296 : Int) = 0 ∧ (0 : Int) = 0)) ∧
    generateImage 4294967296 0
      = .panic "image: NewRGBA Rectangle has huge or negative dimensions" ∧
    generateImage 4294967296 0 ≠ .error errorInvalidDimension := by
  decide

/-- C3, as amended: the square fallback, for buffer lengths that fit an `int`.
For `n > 0` with `4 * n * n ≤ 2^63 - 1`, `generateImage 0 n` and
`generateImage n 0` both succeed with a bitmap of width `n` and height `n`
(bounds, stride and buffer length those of an `n` by `n` image); for `n > 0`
and `m > 0` with `4 * n * m ≤ 2^63 - 1`, `generateImage n m` succeeds with a
bitmap of width `n` and height `m`, neither dimension changed. -/
theorem generateImage_square_fallback (n m : Int) (hn : 0 < n) (hm : 0 < m)
    (hfn : 4 * n * n ≤ 2 ^ 63 - 1) (hfm : 4 * n * m ≤ 2 ^ 63 - 1) :
    (∃ img, generateImage 0 n = .ok img ∧ img.Bounds = ⟨⟨0, 0⟩, ⟨n, n⟩⟩ ∧
      img.Bounds.Dx = n ∧ img.Bounds.Dy = n ∧ img.Stride = 4 * n ∧
      (img.Pix.length : Int) = 4 * n * n) ∧
    (∃ img, generateImage n 0 = .ok img ∧ img.Bounds = ⟨⟨0, 0⟩, ⟨n, n⟩⟩ ∧
      img.Bounds.Dx = n ∧ img.Bounds.Dy = n ∧ img.Stride = 4 * n ∧
      (img.Pix.length : Int) = 4 * n * n) ∧
    (∃ img, generateImage n m = .ok img ∧ img.Bounds = ⟨⟨0, 0⟩, ⟨n, m⟩⟩ ∧
      img.Bounds.Dx = n ∧ img.Bounds.Dy = m ∧ img.Stride = 4 * n ∧
      (img.Pix.length : Int) = 4 * n * m) := by
  refine ⟨?_, ?_, generateImage_bitmap n m hn hm hfm⟩
  · rw [(generateImage_zero n hn).1]
    exact generateImage_bitmap n n hn hn hfn
  · rw [(generateImage_zero n hn).2]
    exact generateImage_bitmap n n hn hn hfn

/-- Witness of C3 as amended: sides 5 and 7. -/
theorem generateImage_square_fallback_witness :
    (∃ img, generateImage 0 5 = .ok img ∧ img.Bounds = ⟨⟨0, 0⟩, ⟨5, 5⟩⟩ ∧
      img.Bounds.Dx = 5 ∧ img.Bounds.Dy = 5 ∧ img.Stride = 4 * 5 ∧
      (img.Pix.length : Int) = 4 * 5 * 5) ∧
    (∃ img, generateImage 5 0 = .ok img ∧ img.Bounds = ⟨⟨0, 0⟩, ⟨5, 5⟩⟩ ∧
      img.Bounds.Dx = 5 ∧ img.Bounds.Dy = 5 ∧ img.Stride = 4 * 5 ∧
      (img.Pix.length : Int) = 4 * 5 * 5) ∧
    (∃ img, generateImage 5 7 = .ok img ∧ img.Bounds = ⟨⟨0, 0⟩, ⟨5, 7⟩⟩ ∧
      img.Bounds.Dx = 5 ∧ img.Bounds.Dy = 7 ∧ img.Stride = 4 * 5 ∧
      (img.Pix.length : Int) = 4 * 5 * 7) :=
  generateImage_square_fallback 5 7 (by decide) (by decide) (by decide) (by decide)

/-- Counterexample to C3 as stated: 4294967296 is positive, and neither
`generateImage 0 4294967296` nor `generateImage 4294967296 0` succeeds: the
buffer length of the square overflows an `int` and `image.NewRGBA` panics. -/
theorem generateImage_square_overflow :
    (0 : Int) < 4294967296 ∧
    generateImage 0 4294967296
      = .panic "image: NewRGBA Rectangle has huge or negative dimensions" ∧
    generateImage 4294967296 0
      = .panic "image: NewRGBA Rectangle has huge or negative dimensions" := by
  decide

/-! ## Lemmas on Itoa and the encoder -/

theorem digitChar_toNat (n : Nat) (h : n < 10) : (Nat.digitChar n).toNat - 48 = n := by
  interval_cases n <;> rfl

theorem toDigitsCore_value (fuel : Nat) :
    ∀ (n : Nat) (ds : List Char), n < fuel →
      ∃ k : Nat, ∀ a : Nat,
        (Nat.toDigitsCore 10 fuel n ds).foldl (fun n c => 10 * n + (c.toNat - 48)) a
          = ds.foldl (fun n c => 10 * n + (c.toNat - 48)) (a * 10 ^ k + n) := by
  induction fuel with
  | zero => intro n ds h; omega
  | succ f ih =>
    intro n ds h
    rw [Nat.toDigitsCore]
    by_cases h0 : n / 10 = 0
    · refine ⟨1, fun a => ?_⟩
      simp only [h0, if_true, List.foldl_cons]
      have hn : n % 10 = n := by omega
      rw [hn, digitChar_toNat n (by omega)]
      congr 1
      omega
    · obtain ⟨k, hk⟩ := ih (n / 10) (Nat.digitChar (n % 10) :: ds) (by omega)
      refine ⟨k + 1, fun a => ?_⟩
      simp only [h0, if_false]
      rw [hk a, List.foldl_cons, digitChar_toNat (n % 10) (by omega)]
      congr 1
      rw [Nat.pow_succ]
      have : 10 * (a * 10 ^ k + n / 10) + n % 10 = a * (10 ^ k * 10) + (10 * (n / 10) + n % 10) := by
        ring
      rw [this, Nat.div_add_mod]

/-- Reading back what `Itoa` writes for a length gives the length. -/
theorem decimalValue_Itoa (n : Nat) : decimalValue (Itoa (n : Int)) = n := by
  have hneg : ¬ ((n : Int) < 0) := by omega
  obtain ⟨k, hk⟩ := toDigitsCore_value (n + 1) n [] (by omega)
  have := hk 0
  simp only [List.foldl_nil, Nat.zero_mul, Nat.zero_add] at this
  simp only [Itoa, hneg, if_false, decimalValue, itoaDigits, Nat.toDigits, Int.natAbs_ofNat]
  exact this

theorem jpegEncode_large (compress : Compressor) (m : RGBA) (quality : Int)
    (h : m.Bounds.Dx ≥ 65536 ∨ m.Bounds.Dy ≥ 65536) :
    jpegEncode compress m quality = .error (errorsNew "jpeg: image is too large to encode") := by
  unfold jpegEncode
  simp only [h, if_true]

theorem jpegEncode_small (compress : Compressor) (m : RGBA)
    (h : ¬ (m.Bounds.Dx ≥ 65536 ∨ m.Bounds.Dy ≥ 65536)) :
    jpegEncode compress m imageQuality = .ok (compress m 75) := by
  unfold jpegEncode
  simp only [h, if_false]
  rfl

/-- The only error of `jpegEncode`. -/
theorem jpegEncode_error (compress : Compressor) (m : RGBA) (quality : Int) (e : Error)
    (h : jpegEncode compress m quality = .error e) :
    e = errorsNew "jpeg: image is too large to encode" := by
  unfold jpegEncode at h
  simp only [] at h
  split at h
  · injection h with h; exact h.symm
  · exact absurd h (by simp)

/-! ## Lemmas on the JSON reader -/

theorem hexValue_lowerhex (n : Nat) (h : n < 16) : hexValue (lowerhex n) = some n := by
  interval_cases n <;> decide

theorem readJsonString_hex4 (n : Nat) (hn : n < 65536) (t : List Char) :
    readJsonString .plain ('\\' :: 'u' :: (hex4 n ++ t))
      = (readJsonString .plain t).map fun p => (Char.ofNat n :: p.1, p.2) := by
  have e1 : ¬ ('\\' = '\"') := by decide
  have h1 := hexValue_lowerhex (n / 4096 % 16) (by omega)
  have h2 := hexValue_lowerhex (n / 256 % 16) (by omega)
  have h3 := hexValue_lowerhex (n / 16 % 16) (by omega)
  have h4 := hexValue_lowerhex (n % 16) (by omega)
  have hval : ((n / 4096 % 16 * 16 + n / 256 % 16) * 16 + n / 16 % 16) * 16 + n % 16 = n := by
    omega
  simp only [hex4, List.cons_append, List.nil_append, readJsonString, e1, if_false, if_true, h1,
    h2, h3, h4]
  simp [hval]

/-- Reading back what `jsonRune` writes for one character. -/
theorem readJsonString_jsonRune (c : Char) (t : List Char) :
    readJsonString .plain (jsonRune c ++ t)
      = (readJsonString .plain t).map fun p => (c :: p.1, p.2) := by
  unfold jsonRune
  by_cases h1 : c = '\"' ∨ c = '\\'
  · rw [if_pos h1]
    rcases h1 with h | h <;> subst h <;> simp [readJsonString, unescape]
  · rw [if_neg h1]
    have hq : ¬ (c = '\"') := fun h => h1 (Or.inl h)
    have hb : ¬ (c = '\\') := fun h => h1 (Or.inr h)
    by_cases h8 : c.toNat = 8
    · rw [if_pos h8]
      have hc8 : c = Char.ofNat 8 := by rw [← h8, Char.ofNat_toNat]
      subst hc8
      simp [readJsonString, unescape]
    rw [if_neg h8]
    by_cases h12 : c.toNat = 12
    · rw [if_pos h12]
      have hc12 : c = Char.ofNat 12 := by rw [← h12, Char.ofNat_toNat]
      subst hc12
      simp [readJsonString, unescape]
    rw [if_neg h12]
    by_cases h2 : c = '\n'
    · subst h2; simp [readJsonString, unescape]
    rw [if_neg h2]
    by_cases h3 : c = '\r'
    · subst h3; simp [readJsonString, unescape]
    rw [if_neg h3]
    by_cases h4 : c = '\t'
    · subst h4; simp [readJsonString, unescape]
    rw [if_neg h4]
    by_cases h5 : c.toNat < 32 ∨ c = '<' ∨ c = '>' ∨ c = '&' ∨ c.toNat = 0x2028 ∨ c.toNat = 0x2029
    · rw [if_pos h5]
      have hlt : c.toNat < 65536 := by
        rcases h5 with h | h | h | h | h | h
        · omega
        · subst h; decide
        · subst h; decide
        · subst h; decide
        · omega
        · omega
      rw [List.cons_append, List.cons_append, readJsonString_hex4 c.toNat hlt, Char.ofNat_toNat]
    · rw [if_neg h5]
      have hc : ¬ (c.toNat < 32) := fun h => h5 (Or.inl h)
      simp only [List.cons_append, List.nil_append, readJsonString, hq, hb, hc, if_false]
      rfl

/-- Reading back what `jsonRune` writes for a text, up to the closing quote. -/
theorem readJsonString_flatMap (s : List Char) (rest : List Char) :
    readJsonString .plain (s.flatMap jsonRune ++ '\"' :: rest) = some (s, rest) := by
  induction s with
  | nil => simp [readJsonString]
  | cons c s ih =>
    rw [List.flatMap_cons, List.append_assoc, readJsonString_jsonRune, ih]
    rfl

/-- The body `sendError` writes reads back as the message. -/
theorem errorMember_jsonString (msg : String) :
    errorMember ("\x7b\"error\":" ++ jsonString msg ++ "\x7d") = some msg := by
  have hd : ("\x7b\"error\":" ++ jsonString msg ++ "\x7d").data
      = '\x7b' :: '\"' :: ("error".data.flatMap jsonRune
          ++ '\"' :: ':' :: '\"' :: (msg.data.flatMap jsonRune ++ '\"' :: ['\x7d'])) := by
    simp only [String.data_append, jsonString]
    simp
    rfl
  unfold errorMember
  rw [hd]
  simp only [readJsonString_flatMap]
  simp

/-! ## Lemmas on the responses -/

theorem jpegEncode_ok_eq (compress : Compressor) (m : RGBA) (buffer : List Nat)
    (h : jpegEncode compress m imageQuality = .ok buffer) : buffer = compress m 75 := by
  by_cases hl : m.Bounds.Dx ≥ 65536 ∨ m.Bounds.Dy ≥ 65536
  · rw [jpegEncode_large compress m imageQuality hl] at h
    exact absurd h (by simp)
  · rw [jpegEncode_small compress m hl] at h
    injection h with h
    exact h.symm

/-- The variables of a width-only request: the height reads as 0. -/
theorem getInputValue_width_only (W : String) :
    getInputValue [("width", W)] "width" = Atoi W ∧
    getInputValue [("width", W)] "height" = .ok 0 := by
  constructor
  · exact getInputValue_present _ _ _ (by simp [Vars.get])
  · exact getInputValue_absent _ _ (by simp [Vars.get])

theorem invalidDimension_body :
    jsonMarshal [("error", errorInvalidDimension.message)]
      = utf8 "\x7b\"error\":\"width and height values must be positive\"\x7d" := by
  decide

theorem notFound_body :
    jsonMarshal [("error", error404.message)] = utf8 "\x7b\"error\":\"page not found\"\x7d" := by
  decide

/-- A request whose path is not in clean form is redirected. -/
theorem ServeHTTP_unclean (compress : Compressor) (req : Request)
    (h : cleanPath req.Path ≠ req.Path) :
    ServeHTTP compress req
      = .response (redirectHandler ResponseWriter.fresh (cleanPath req.Path)) := by
  unfold ServeHTTP
  rw [if_pos h]

/-- A request whose clean path matches no template goes to the not-found
handler. -/
theorem ServeHTTP_unmatched (compress : Compressor) (req : Request)
    (hclean : cleanPath req.Path = req.Path)
    (hnone : ∀ r ∈ routes, matchTemplate r.template req.Path.data = none) :
    ServeHTTP compress req = .response (notFoundHandler ResponseWriter.fresh) := by
  have hm := routerMatch_no_template routes req false hnone
  unfold ServeHTTP
  rw [if_neg (fun h => h hclean), hm]
  rfl

/-- A request to the path of an image route with a method other than GET is
answered by the router's own handler. -/
theorem ServeHTTP_wrong_method (compress : Compressor) (req : Request)
    (hclean : cleanPath req.Path = req.Path)
    (himg : ∃ r ∈ routes, r.handler = .serveImageRequest ∧
      (matchTemplate r.template req.Path.data).isSome = true)
    (hmeth : req.Method ≠ "GET") :
    ServeHTTP compress req = .response (methodNotAllowedHandler ResponseWriter.fresh) := by
  obtain ⟨r, hr, hh, hsome⟩ := himg
  have hmain : matchTemplate [.lit "/"] req.Path.data = none := by
    simp only [routes, List.mem_cons, List.mem_singleton, List.not_mem_nil, or_false] at hr
    rcases hr with e | e | e | e | e | e | e
    · rw [e] at hh; exact absurd hh (by decide)
    all_goals
      rw [e] at hsome
      exact mainPage_none_of_image _ _ _ hsome
  have hrest : routerMatch routes.tail req false = .methodMismatch := by
    apply routerMatch_wrong_method
    · intro r1 hr1
      refine ⟨["GET"], ?_, by simpa using hmeth⟩
      simp only [routes, List.tail_cons, List.mem_cons, List.mem_singleton, List.not_mem_nil,
        or_false] at hr1
      rcases hr1 with e | e | e | e | e | e <;> rw [e]
    · right
      refine ⟨r, ?_, hsome⟩
      simp only [routes, List.mem_cons, List.mem_singleton, List.not_mem_nil, or_false] at hr
      rcases hr with e | e | e | e | e | e | e
      · rw [e] at hh; exact absurd hh (by decide)
      all_goals
        rw [e]
        simp [routes]
  have hm : routerMatch routes req false = .methodMismatch := by
    have : routes = ⟨[.lit "/"], none, .serveMainPageRequest⟩ :: routes.tail := rfl
    rw [this, routerMatch]
    dsimp only
    rw [hmain]
    exact hrest
  unfold ServeHTTP
  rw [if_neg (fun h => h hclean), hm]

/-- The response of the handler when all four steps succeed. -/
theorem serveImageRequest_written (compress : Compressor) (requestVars : Vars)
    (width height : Int) (img : RGBA) (buffer : List Nat)
    (hw : getInputValue requestVars "width" = .ok width)
    (hh : getInputValue requestVars "height" = .ok height)
    (hg : generateImage width height = .ok img)
    (he : jpegEncode compress img imageQuality = .ok buffer) :
    serveImageRequest compress ResponseWriter.fresh requestVars =
      .response
        { header := [("Content-Length", Itoa buffer.length), ("Content-Type", "image/jpeg")],
          wroteHeader := true, status := 200,
          sent := [("Content-Length", Itoa buffer.length), ("Content-Type", "image/jpeg")],
          body := buffer } := by
  rw [serveImageRequest_parsed compress _ requestVars width height hw hh, hg]
  dsimp only
  rw [he]
  dsimp only
  rw [imageResponse_fresh buffer]

/-! ## The claims on the responses -/

/-- C8: when parsing, `generateImage` and the JPEG encoder all succeed,
`serveImageRequest` answers with status 200, the headers `Content-Type:
image/jpeg` and `Content-Length` holding the decimal rendering of the number
of body bytes, and a body that is exactly the output of the encoder at
quality 75 for the bitmap `generateImage` returned for the parsed width and
height. -/
theorem serveImageRequest_success (compress : Compressor) (requestVars : Vars)
    (width height : Int) (img : RGBA) (buffer : List Nat)
    (hw : getInputValue requestVars "width" = .ok width)
    (hh : getInputValue requestVars "height" = .ok height)
    (hg : generateImage width height = .ok img)
    (he : jpegEncode compress img imageQuality = .ok buffer) :
    serveImageRequest compress ResponseWriter.fresh requestVars =
      .response
        { header := [("Content-Length", Itoa buffer.length), ("Content-Type", "image/jpeg")],
          wroteHeader := true, status := 200,
          sent := [("Content-Length", Itoa buffer.length), ("Content-Type", "image/jpeg")],
          body := buffer } ∧
    buffer = compress img 75 ∧
    decimalValue (Itoa buffer.length) = buffer.length := by
  exact ⟨serveImageRequest_written compress requestVars width height img buffer hw hh hg he,
    jpegEncode_ok_eq compress img buffer he, decimalValue_Itoa _⟩

/-- Witness of C8: the request variables of `/3/2`, with a stand-in encoder
whose output is the number of pixel bytes and the quality. -/
theorem serveImageRequest_success_witness :
    serveImageRequest (fun m q => [m.Pix.length, q]) ResponseWriter.fresh
        [("width", "3"), ("height", "2")] =
      .response
        { header := [("Content-Length", Itoa ([24, 75] : List Nat).length),
            ("Content-Type", "image/jpeg")],
          wroteHeader := true, status := 200,
          sent := [("Content-Length", Itoa ([24, 75] : List Nat).length),
            ("Content-Type", "image/jpeg")],
          body := [24, 75] } ∧
    [24, 75] = (fun (m : RGBA) (q : Nat) => [m.Pix.length, q])
      (Draw { Pix := List.replicate 24 0, Stride := 12, Rect := ⟨⟨0, 0⟩, ⟨3, 2⟩⟩ }
        ⟨⟨0, 0⟩, ⟨3, 2⟩⟩ (NewUniform ⟨0xCE, 0xCE, 0xCE, 0xFF⟩) ZP) 75 ∧
    decimalValue (Itoa ([24, 75] : List Nat).length) = ([24, 75] : List Nat).length :=
  serveImageRequest_success (fun m q => [m.Pix.length, q]) [("width", "3"), ("height", "2")] 3 2
    (Draw { Pix := List.replicate 24 0, Stride := 12, Rect := ⟨⟨0, 0⟩, ⟨3, 2⟩⟩ }
      ⟨⟨0, 0⟩, ⟨3, 2⟩⟩ (NewUniform ⟨0xCE, 0xCE, 0xCE, 0xFF⟩) ZP)
    [24, 75] (by decide) (by decide) (by decide) (by decide)

/-- C4, as amended: every error returned inside the handlers has one response
shape.  For every error `e`, `sendError` answers with status 400, the header
`Content-Type: application/json` and, as body, the JSON object whose only
member `error` is the message of `e` (the body reads back as that message).
That is the response of `serveImageRequest` when parsing the width, parsing
the height, `generateImage` or the JPEG encoder returns the error `e`, and,
with the error `page not found`, the response of the not-found handler.  When
`serveImageRequest` responds, its status is 400 or 200, and 200 only when all
four steps succeeded.  A method mismatch does not take that shape: a request
to the path of an image route with a method other than GET is answered by the
router with status 405, no header and no body. -/
theorem error_response_shape (compress : Compressor) (requestVars : Vars) (e : Error) :
    sendError ResponseWriter.fresh e =
      { header := [("Content-Type", "application/json")], wroteHeader := true, status := 400,
        sent := [("Content-Type", "application/json")],
        body := utf8 ("\x7b\"error\":" ++ jsonString e.message ++ "\x7d") } ∧
    errorMember ("\x7b\"error\":" ++ jsonString e.message ++ "\x7d") = some e.message ∧
    (getInputValue requestVars "width" = .error e →
      serveImageRequest compress ResponseWriter.fresh requestVars
        = .response (sendError ResponseWriter.fresh e)) ∧
    (∀ width, getInputValue requestVars "width" = .ok width →
      getInputValue requestVars "height" = .error e →
      serveImageRequest compress ResponseWriter.fresh requestVars
        = .response (sendError ResponseWriter.fresh e)) ∧
    (∀ width height, getInputValue requestVars "width" = .ok width →
      getInputValue requestVars "height" = .ok height →
      generateImage width height = .error e →
      serveImageRequest compress ResponseWriter.fresh requestVars
        = .response (sendError ResponseWriter.fresh e)) ∧
    (∀ width height img, getInputValue requestVars "width" = .ok width →
      getInputValue requestVars "height" = .ok height →
      generateImage width height = .ok img →
      jpegEncode compress img imageQuality = .error e →
      serveImageRequest compress ResponseWriter.fresh requestVars
        = .response (sendError ResponseWriter.fresh e)) ∧
    notFoundHandler ResponseWriter.fresh = sendError ResponseWriter.fresh error404 ∧
    (∀ w, serveImageRequest compress ResponseWriter.fresh requestVars = .response w →
      w.status = 400 ∨ w.status = 200) ∧
    ((∃ w, serveImageRequest compress ResponseWriter.fresh requestVars = .response w ∧
        w.status = 200) ↔
      ∃ width height img buffer, getInputValue requestVars "width" = .ok width ∧
        getInputValue requestVars "height" = .ok height ∧
        generateImage width height = .ok img ∧
        jpegEncode compress img imageQuality = .ok buffer) ∧
    (∀ req : Request, cleanPath req.Path = req.Path →
      (∃ r ∈ routes, r.handler = .serveImageRequest ∧
        (matchTemplate r.template req.Path.data).isSome = true) →
      req.Method ≠ "GET" →
      ServeHTTP compress req =
        .response { header := [], wroteHeader := true, status := 405, sent := [], body := [] }) := by
  have hs : ∀ err, (sendError ResponseWriter.fresh err).status = 400 := by
    intro err; rw [sendError_fresh]
  have hshape : ∀ w, serveImageRequest compress ResponseWriter.fresh requestVars = .response w →
      (w.status = 400 ∧ ¬ ∃ width height img buffer,
          getInputValue requestVars "width" = .ok width ∧
          getInputValue requestVars "height" = .ok height ∧
          generateImage width height = .ok img ∧
          jpegEncode compress img imageQuality = .ok buffer) ∨
      (w.status = 200 ∧ ∃ width height img buffer,
          getInputValue requestVars "width" = .ok width ∧
          getInputValue requestVars "height" = .ok height ∧
          generateImage width height = .ok img ∧
          jpegEncode compress img imageQuality = .ok buffer) := by
    intro w hw
    cases h1 : getInputValue requestVars "width" with
    | error err =>
      rw [serveImageRequest_width_error compress _ requestVars err h1] at hw
      injection hw with hw
      left
      rw [← hw]
      exact ⟨hs err, by simp⟩
    | ok width =>
      cases h2 : getInputValue requestVars "height" with
      | error err =>
        rw [serveImageRequest_height_error compress _ requestVars width err h1 h2] at hw
        injection hw with hw
        left
        rw [← hw]
        exact ⟨hs err, by simp⟩
      | ok height =>
        rw [serveImageRequest_parsed compress _ requestVars width height h1 h2] at hw
        cases h3 : generateImage width height with
        | error err =>
          rw [h3] at hw
          injection hw with hw
          left
          rw [← hw]
          exact ⟨hs err, by simp [h3]⟩
        | panic msg =>
          rw [h3] at hw
          exact absurd hw (by simp)
        | ok img =>
          rw [h3] at hw
          dsimp only at hw
          cases h4 : jpegEncode compress img imageQuality with
          | error err =>
            rw [h4] at hw
            injection hw with hw
            left
            rw [← hw]
            exact ⟨hs err, by simp [h3, h4]⟩
          | ok buffer =>
            rw [h4] at hw
            dsimp only at hw
            rw [imageResponse_fresh] at hw
            injection hw with hw
            right
            rw [← hw]
            exact ⟨rfl, width, height, img, buffer, rfl, rfl, h3, h4⟩
  refine ⟨by rw [sendError_fresh, jsonMarshal_error], errorMember_jsonString _, ?_, ?_, ?_, ?_, rfl,
    ?_, ⟨?_, ?_⟩, ?_⟩
  · intro h1
    exact serveImageRequest_width_error compress _ requestVars e h1
  · intro width h1 h2
    exact serveImageRequest_height_error compress _ requestVars width e h1 h2
  · intro width height h1 h2 h3
    rw [serveImageRequest_parsed compress _ requestVars width height h1 h2, h3]
  · intro width height img h1 h2 h3 h4
    rw [serveImageRequest_parsed compress _ requestVars width height h1 h2, h3]
    dsimp only
    rw [h4]
  · intro w hw
    rcases hshape w hw with h | h
    · exact Or.inl h.1
    · exact Or.inr h.1
  · rintro ⟨w, hw, h200⟩
    rcases hshape w hw with h | h
    · rw [h.1] at h200
      exact absurd h200 (by decide)
    · exact h.2
  · rintro ⟨width, height, img, buffer, h1, h2, h3, h4⟩
    exact ⟨_, serveImageRequest_written compress requestVars width height img buffer
      h1 h2 h3 h4, rfl⟩
  · intro req hclean himg hmeth
    rw [ServeHTTP_wrong_method compress req hclean himg hmeth]
    rfl

/-- Witness of C4 as amended: the four error paths of `serveImageRequest`, on
an over-long width, an over-long height, the width 0 and the image 65536 by 1,
and the request `DELETE /7`. -/
theorem error_response_shape_witness :
    serveImageRequest (fun _ _ => []) ResponseWriter.fresh [("width", "9223372036854775808")]
      = .response (sendError ResponseWriter.fresh
          (.numError "Atoi" "9223372036854775808" ErrRange)) ∧
    serveImageRequest (fun _ _ => []) ResponseWriter.fresh
        [("width", "1"), ("height", "9223372036854775808")]
      = .response (sendError ResponseWriter.fresh
          (.numError "Atoi" "9223372036854775808" ErrRange)) ∧
    serveImageRequest (fun _ _ => []) ResponseWriter.fresh [("width", "0")]
      = .response (sendError ResponseWriter.fresh errorInvalidDimension) ∧
    serveImageRequest (fun _ _ => []) ResponseWriter.fresh [("width", "65536"), ("height", "1")]
      = .response (sendError ResponseWriter.fresh
          (errorsNew "jpeg: image is too large to encode")) ∧
    ServeHTTP (fun _ _ => []) ⟨"DELETE", "/7"⟩ =
      .response { header := [], wroteHeader := true, status := 405, sent := [], body := [] } :=
  ⟨(error_response_shape (fun _ _ => []) [("width", "9223372036854775808")]
      (.numError "Atoi" "9223372036854775808" ErrRange)).2.2.1 (by decide),
    (error_response_shape (fun _ _ => []) [("width", "1"), ("height", "9223372036854775808")]
      (.numError "Atoi" "9223372036854775808" ErrRange)).2.2.2.1 1 (by decide) (by decide),
    (error_response_shape (fun _ _ => []) [("width", "0")]
      errorInvalidDimension).2.2.2.2.1 0 0 (by decide) (by decide) (by decide),
    (error_response_shape (fun _ _ => []) [("width", "65536"), ("height", "1")]
      (errorsNew "jpeg: image is too large to encode")).2.2.2.2.2.1 65536 1
      (Draw { Pix := List.replicate (4 * 65536 * 1 : Int).toNat 0, Stride := 4 * 65536,
              Rect := ⟨⟨0, 0⟩, ⟨65536, 1⟩⟩ }
        ⟨⟨0, 0⟩, ⟨65536, 1⟩⟩ (NewUniform ⟨0xCE, 0xCE, 0xCE, 0xFF⟩) ZP)
      (by decide) (by decide)
      (generateImage_ok 65536 1 (by decide) (by decide) (by decide))
      (jpegEncode_large _ _ _ (by
        left
        unfold RGBA.Bounds
        rw [(Draw_Rect _ _ _ _).1]
        decide)),
    (error_response_shape (fun _ _ => []) [] error404).2.2.2.2.2.2.2.2.2
      ⟨"DELETE", "/7"⟩ (by decide) (by decide) (by decide)⟩

/-- Counterexample to C4 as stated: the request `DELETE /220x64.jpg` fails, and
its response is not of the one shape: the status is 405, not 400, there is no
`Content-Type` header and no JSON body; it is the response of `sendError` for
no error. -/
theorem method_mismatch_other_shape :
    ServeHTTP (fun _ _ => []) ⟨"DELETE", "/220x64.jpg"⟩ =
      .response { header := [], wroteHeader := true, status := 405, sent := [], body := [] } ∧
    (∀ e : Error, ServeHTTP (fun _ _ => []) ⟨"DELETE", "/220x64.jpg"⟩
      ≠ .response (sendError ResponseWriter.fresh e)) := by
  have h : ServeHTTP (fun _ _ => []) ⟨"DELETE", "/220x64.jpg"⟩ =
      .response { header := [], wroteHeader := true, status := 405, sent := [], body := [] } := by
    decide
  refine ⟨h, ?_⟩
  intro e he
  rw [h, sendError_fresh] at he
  injection he with he
  injection he with _ _ h3 _ _
  exact absurd h3 (by decide)

/-- The handler on the variables of a width-only request whose width is 0. -/
theorem serveImageRequest_width_zero (compress : Compressor) (W : String)
    (hp : Atoi W = .ok 0) :
    serveImageRequest compress ResponseWriter.fresh [("width", W)] =
      .response
        { header := [("Content-Type", "application/json")], wroteHeader := true, status := 400,
          sent := [("Content-Type", "application/json")],
          body := utf8 "\x7b\"error\":\"width and height values must be positive\"\x7d" } := by
  rw [serveImageRequest_parsed compress _ [("width", W)] 0 0
    (by rw [(getInputValue_width_only W).1, hp]) (getInputValue_width_only W).2]
  have : generateImage 0 0 = .error errorInvalidDimension := by decide
  rw [this]
  dsimp only
  rw [sendError_fresh, invalidDimension_body]

/-- C5, as amended: a width-only request, `GET /W` or `GET /W.jpg` with `W` a
non-empty string of digits, reaches `serveImageRequest` with the variable
`width` and no `height`.  If the width is `n` with `0 < n < 65536`, the
response is the image response (status 200) whose body is the encoding at
quality 75 of the `n` by `n` square that `generateImage n n` returns.  If the
width is 0 the response has status 400 and the body
`{"error":"width and height values must be positive"}`. -/
theorem width_only_request (compress : Compressor) (W : String) (hne : W.data ≠ [])
    (hd : ∀ c ∈ W.data, isDigit c = true) :
    (ServeHTTP compress ⟨"GET", "/" ++ W⟩
        = serveImageRequest compress ResponseWriter.fresh [("width", W)] ∧
      ServeHTTP compress ⟨"GET", "/" ++ W ++ ".jpg"⟩
        = serveImageRequest compress ResponseWriter.fresh [("width", W)] ∧
      Vars.get [("width", W)] "width" = some W ∧ Vars.get [("width", W)] "height" = none) ∧
    (0 < decimalValue W → decimalValue W < 65536 →
      ∃ img, generateImage (decimalValue W) (decimalValue W) = .ok img ∧
        img.Bounds = ⟨⟨0, 0⟩, ⟨decimalValue W, decimalValue W⟩⟩ ∧
        serveImageRequest compress ResponseWriter.fresh [("width", W)] =
          .response
            { header := [("Content-Length", Itoa (compress img 75).length),
                ("Content-Type", "image/jpeg")],
              wroteHeader := true, status := 200,
              sent := [("Content-Length", Itoa (compress img 75).length),
                ("Content-Type", "image/jpeg")],
              body := compress img 75 }) ∧
    (decimalValue W = 0 →
      serveImageRequest compress ResponseWriter.fresh [("width", W)] =
        .response
          { header := [("Content-Type", "application/json")], wroteHeader := true,
            status := 400, sent := [("Content-Type", "application/json")],
            body := utf8 "\x7b\"error\":\"width and height values must be positive\"\x7d" }) := by
  have hA := Atoi_digits W hne hd
  refine ⟨⟨?_, ?_, by simp [Vars.get], by simp [Vars.get]⟩, ?_, ?_⟩
  · rw [ServeHTTP_W compress "GET" W hne hd, if_pos rfl]
  · rw [ServeHTTP_Wjpg compress "GET" W hne hd, if_pos rfl]
  · intro hpos hlt
    rw [if_pos (by norm_num; omega)] at hA
    have hn : (0 : Int) < (decimalValue W : Int) := by exact_mod_cast hpos
    have hlt' : (decimalValue W : Int) < 65536 := by exact_mod_cast hlt
    have hfit : 4 * (decimalValue W : Int) * (decimalValue W : Int) ≤ 2 ^ 63 - 1 := by
      nlinarith
    obtain ⟨img, hg, hb, _⟩ :=
      generateImage_bitmap (decimalValue W) (decimalValue W) hn hn hfit
    refine ⟨img, hg, hb, ?_⟩
    have he := jpegEncode_small compress img
      (by rw [hb]; simp [Rectangle.Dx, Rectangle.Dy]; omega)
    exact serveImageRequest_written compress [("width", W)] (decimalValue W) 0 img
      (compress img 75) (by rw [(getInputValue_width_only W).1, hA])
      (getInputValue_width_only W).2
      (by rw [(generateImage_zero _ hn).2]; exact hg) he
  · intro h0
    rw [h0] at hA
    rw [if_pos (by norm_num)] at hA
    exact serveImageRequest_width_zero compress W hA

/-- Witness of C5 as amended: the request `GET /3`. -/
theorem width_only_request_witness :
    (ServeHTTP (fun m q => [m.Pix.length, q]) ⟨"GET", "/" ++ "3"⟩
        = serveImageRequest (fun m q => [m.Pix.length, q]) ResponseWriter.fresh [("width", "3")] ∧
      ServeHTTP (fun m q => [m.Pix.length, q]) ⟨"GET", "/" ++ "3" ++ ".jpg"⟩
        = serveImageRequest (fun m q => [m.Pix.length, q]) ResponseWriter.fresh [("width", "3")] ∧
      Vars.get [("width", "3")] "width" = some "3" ∧ Vars.get [("width", "3")] "height" = none) ∧
    (∃ img, generateImage (decimalValue "3") (decimalValue "3") = .ok img ∧
      img.Bounds = ⟨⟨0, 0⟩, ⟨decimalValue "3", decimalValue "3"⟩⟩ ∧
      serveImageRequest (fun m q => [m.Pix.length, q]) ResponseWriter.fresh [("width", "3")] =
        .response
          { header := [("Content-Length", Itoa ([img.Pix.length, 75] : List Nat).length),
              ("Content-Type", "image/jpeg")],
            wroteHeader := true, status := 200,
            sent := [("Content-Length", Itoa ([img.Pix.length, 75] : List Nat).length),
              ("Content-Type", "image/jpeg")],
            body := [img.Pix.length, 75] }) :=
  ⟨(width_only_request (fun m q => [m.Pix.length, q]) "3" (by decide) (by decide)).1,
    (width_only_request (fun m q => [m.Pix.length, q]) "3" (by decide) (by decide)).2.1
      (by decide) (by decide)⟩

/-- Counterexample to C5 as stated: the width of `GET /4294967296` parses to
4294967296 > 0, and the handler does not respond with an image: it panics in
`image.NewRGBA`, the buffer length of the square overflowing an `int`, and no
response is sent. -/
theorem width_only_request_panics :
    Atoi "4294967296" = .ok 4294967296 ∧
    ServeHTTP (fun _ _ => []) ⟨"GET", "/" ++ "4294967296"⟩ =
      .panic "image: NewRGBA Rectangle has huge or negative dimensions" := by
  decide

/-- C6: the image response depends on the dimensions only, not on the form of
the route.  For non-empty strings of digits `W` and `H`, the requests
`GET /W/H`, `GET /WxH`, `GET /W/H.jpg` and `GET /WxH.jpg` are all dispatched to
`serveImageRequest` with the variables `width = W` and `height = H`, which
parse to the same width and height, and their responses (status, headers and
body) are identical. -/
theorem route_form_independent (compress : Compressor) (W H : String) (hWne : W.data ≠ [])
    (hWd : ∀ c ∈ W.data, isDigit c = true) (hHne : H.data ≠ [])
    (hHd : ∀ c ∈ H.data, isDigit c = true) :
    (routerMatch routes ⟨"GET", "/" ++ W ++ "/" ++ H⟩ false
        = .found .serveImageRequest [("width", W), ("height", H)] ∧
      routerMatch routes ⟨"GET", "/" ++ W ++ "x" ++ H⟩ false
        = .found .serveImageRequest [("width", W), ("height", H)] ∧
      routerMatch routes ⟨"GET", "/" ++ W ++ "/" ++ H ++ ".jpg"⟩ false
        = .found .serveImageRequest [("width", W), ("height", H)] ∧
      routerMatch routes ⟨"GET", "/" ++ W ++ "x" ++ H ++ ".jpg"⟩ false
        = .found .serveImageRequest [("width", W), ("height", H)]) ∧
    (getInputValue [("width", W), ("height", H)] "width" = Atoi W ∧
      getInputValue [("width", W), ("height", H)] "height" = Atoi H) ∧
    (ServeHTTP compress ⟨"GET", "/" ++ W ++ "/" ++ H⟩
        = serveImageRequest compress ResponseWriter.fresh [("width", W), ("height", H)] ∧
      ServeHTTP compress ⟨"GET", "/" ++ W ++ "x" ++ H⟩
        = ServeHTTP compress ⟨"GET", "/" ++ W ++ "/" ++ H⟩ ∧
      ServeHTTP compress ⟨"GET", "/" ++ W ++ "/" ++ H ++ ".jpg"⟩
        = ServeHTTP compress ⟨"GET", "/" ++ W ++ "/" ++ H⟩ ∧
      ServeHTTP compress ⟨"GET", "/" ++ W ++ "x" ++ H ++ ".jpg"⟩
        = ServeHTTP compress ⟨"GET", "/" ++ W ++ "/" ++ H⟩) := by
  have h1 := routerMatch_WslashH "GET" W H hWne hWd hHne hHd
  have h2 := routerMatch_WxH "GET" W H hWne hWd hHne hHd
  have h3 := routerMatch_WslashHjpg "GET" W H hWne hWd hHne hHd
  have h4 := routerMatch_WxHjpg "GET" W H hWne hWd hHne hHd
  simp only [if_true] at h1 h2 h3 h4
  refine ⟨⟨h1, h2, h3, h4⟩, ⟨?_, ?_⟩, ?_⟩
  · exact getInputValue_present _ _ _ (by simp [Vars.get])
  · exact getInputValue_present _ _ _ (by simp [Vars.get])
  · rw [ServeHTTP_WslashH compress "GET" W H hWne hWd hHne hHd,
      ServeHTTP_WxH compress "GET" W H hWne hWd hHne hHd,
      ServeHTTP_WslashHjpg compress "GET" W H hWne hWd hHne hHd,
      ServeHTTP_WxHjpg compress "GET" W H hWne hWd hHne hHd]
    exact ⟨rfl, rfl, rfl, rfl⟩

/-- Witness of C6: the dimensions 220 by 64. -/
theorem route_form_independent_witness :
    ServeHTTP (fun m q => [m.Pix.length, q]) ⟨"GET", "/" ++ "220" ++ "x" ++ "64"⟩
        = ServeHTTP (fun m q => [m.Pix.length, q]) ⟨"GET", "/" ++ "220" ++ "/" ++ "64"⟩ ∧
      ServeHTTP (fun m q => [m.Pix.length, q]) ⟨"GET", "/" ++ "220" ++ "/" ++ "64" ++ ".jpg"⟩
        = ServeHTTP (fun m q => [m.Pix.length, q]) ⟨"GET", "/" ++ "220" ++ "/" ++ "64"⟩ ∧
      ServeHTTP (fun m q => [m.Pix.length, q]) ⟨"GET", "/" ++ "220" ++ "x" ++ "64" ++ ".jpg"⟩
        = ServeHTTP (fun m q => [m.Pix.length, q]) ⟨"GET", "/" ++ "220" ++ "/" ++ "64"⟩ :=
  (route_form_independent (fun m q => [m.Pix.length, q]) "220" "64" (by decide) (by decide)
    (by decide) (by decide)).2.2.2

/-- C7, as amended: a request whose path is not in clean form is answered by
the router before anything is matched, with status 301, the header `Location`
and no body.  For a request whose path is in clean form: if the path matches
none of the seven templates, the not-found handler answers, with status 400,
the header `Content-Type: application/json` and the body
`{"error":"page not found"}`; if it is the path of an image route and the
method is not GET, the router itself answers, with status 405 and an empty
body. -/
theorem unmatched_request (compress : Compressor) (req : Request) :
    (cleanPath req.Path ≠ req.Path →
      ServeHTTP compress req =
        .response { header := [("Location", cleanPath req.Path)], wroteHeader := true,
                    status := 301, sent := [("Location", cleanPath req.Path)], body := [] }) ∧
    (cleanPath req.Path = req.Path →
      (∀ r ∈ routes, matchTemplate r.template req.Path.data = none) →
      ServeHTTP compress req = .response (notFoundHandler ResponseWriter.fresh) ∧
      ServeHTTP compress req =
        .response
          { header := [("Content-Type", "application/json")], wroteHeader := true,
            status := 400, sent := [("Content-Type", "application/json")],
            body := utf8 "\x7b\"error\":\"page not found\"\x7d" }) ∧
    (cleanPath req.Path = req.Path →
      (∃ r ∈ routes, r.handler = .serveImageRequest ∧
        (matchTemplate r.template req.Path.data).isSome = true) →
      req.Method ≠ "GET" →
      ServeHTTP compress req = .response (methodNotAllowedHandler ResponseWriter.fresh) ∧
      ServeHTTP compress req =
        .response { header := [], wroteHeader := true, status := 405, sent := [], body := [] }) := by
  refine ⟨?_, ?_, ?_⟩
  · intro h
    rw [ServeHTTP_unclean compress req h]
    simp [redirectHandler, ResponseWriter.fresh, ResponseWriter.HeaderSet,
      ResponseWriter.WriteHeader, headerSet]
  · intro hclean hnone
    have hr := ServeHTTP_unmatched compress req hclean hnone
    refine ⟨hr, ?_⟩
    rw [hr, notFoundHandler, sendError_fresh, notFound_body]
  · intro hclean himg hmeth
    have hr := ServeHTTP_wrong_method compress req hclean himg hmeth
    exact ⟨hr, by rw [hr]; rfl⟩

/-- Witness of C7 as amended: `GET //220`, `GET /nonsense` and `POST /220`. -/
theorem unmatched_request_witness :
    ServeHTTP (fun _ _ => []) ⟨"GET", "//220"⟩ =
        .response { header := [("Location", cleanPath "//220")], wroteHeader := true,
                    status := 301, sent := [("Location", cleanPath "//220")], body := [] } ∧
    ServeHTTP (fun _ _ => []) ⟨"GET", "/nonsense"⟩ =
        .response
          { header := [("Content-Type", "application/json")], wroteHeader := true,
            status := 400, sent := [("Content-Type", "application/json")],
            body := utf8 "\x7b\"error\":\"page not found\"\x7d" } ∧
    ServeHTTP (fun _ _ => []) ⟨"POST", "/220"⟩ =
        .response { header := [], wroteHeader := true, status := 405, sent := [], body := [] } :=
  ⟨(unmatched_request (fun _ _ => []) ⟨"GET", "//220"⟩).1 (by decide),
    ((unmatched_request (fun _ _ => []) ⟨"GET", "/nonsense"⟩).2.1 (by decide) (by decide)).2,
    ((unmatched_request (fun _ _ => []) ⟨"POST", "/220"⟩).2.2 (by decide) (by decide)
      (by decide)).2⟩

/-- Counterexample to C7 as stated: `POST /220` is a request to the path of an
image route with a method other than GET, and the response is not that of the
not-found handler: its status is 405 and its body is empty.  And `GET //220`
has a path that matches none of the templates, and is answered with status
301. -/
theorem wrong_method_not_notFound :
    matchTemplate [.lit "/", .digits "width"] ("/220" : String).data = some [("width", "220")] ∧
    ServeHTTP (fun _ _ => []) ⟨"POST", "/220"⟩ =
      .response { header := [], wroteHeader := true, status := 405, sent := [], body := [] } ∧
    ServeHTTP (fun _ _ => []) ⟨"POST", "/220"⟩ ≠ .response (notFoundHandler ResponseWriter.fresh) ∧
    (∀ r ∈ routes, matchTemplate r.template ("//220" : String).data = none) ∧
    ServeHTTP (fun _ _ => []) ⟨"GET", "//220"⟩ =
      .response { header := [("Location", "/220")], wroteHeader := true, status := 301,
                  sent := [("Location", "/220")], body := [] } := by
  decide

/-- C9, as amended: for a non-empty string of digits stored under the key,
`getInputValue` returns no error exactly when the decimal value is at most
2^63 - 1, the largest `int`; it then returns that value, which is not
negative.  For a larger value it returns the range error of `strconv.Atoi`,
so the parse-error branches of `serveImageRequest` can be reached. -/
theorem getInputValue_digits (requestVars : Vars) (keyName s : String)
    (hget : requestVars.get keyName = some s) (hne : s.data ≠ [])
    (hd : ∀ c ∈ s.data, isDigit c = true) :
    (decimalValue s < 2 ^ 63 →
      getInputValue requestVars keyName = .ok (decimalValue s : Int) ∧
      (0 : Int) ≤ (decimalValue s : Int)) ∧
    (2 ^ 63 ≤ decimalValue s →
      getInputValue requestVars keyName = .error (.numError "Atoi" s ErrRange)) := by
  rw [getInputValue_present requestVars keyName s hget, Atoi_digits s hne hd]
  constructor
  · intro h
    rw [if_pos h]
    exact ⟨rfl, Int.ofNat_nonneg _⟩
  · intro h
    rw [if_neg (by omega)]

/-- Witness of C9 as amended: the widths 220 and 2^63. -/
theorem getInputValue_digits_witness :
    (getInputValue [("width", "220")] "width" = .ok (decimalValue "220" : Int) ∧
      (0 : Int) ≤ (decimalValue "220" : Int)) ∧
    getInputValue [("width", "9223372036854775808")] "width"
      = .error (.numError "Atoi" "9223372036854775808" ErrRange) :=
  ⟨(getInputValue_digits [("width", "220")] "width" "220" (by decide) (by decide)
      (by decide)).1 (by decide),
    (getInputValue_digits [("width", "9223372036854775808")] "width" "9223372036854775808"
      (by decide) (by decide) (by decide)).2 (by decide)⟩

/-- Counterexample to C9 as stated: `9223372036854775808` is a non-empty
string of digits, the router captures it as the width of
`GET /9223372036854775808`, and `getInputValue` returns an error for it. -/
theorem getInputValue_digits_overflow :
    ("9223372036854775808" : String).data ≠ [] ∧
    (∀ c ∈ ("9223372036854775808" : String).data, isDigit c = true) ∧
    routerMatch routes ⟨"GET", "/9223372036854775808"⟩ false
      = .found .serveImageRequest [("width", "9223372036854775808")] ∧
    getInputValue [("width", "9223372036854775808")] "width"
      = .error (.numError "Atoi" "9223372036854775808" ErrRange) := by
  decide

theorem Vars.get_mem (m : Vars) (k v : String) (h : m.get k = some v) :
    ∃ e ∈ m, e.2 = v := by
  unfold Vars.get at h
  cases hf : m.find? (fun e => decide (e.1 = k)) with
  | none => rw [hf] at h; exact absurd h (by simp)
  | some e =>
    rw [hf] at h
    simp only [Option.map_some'] at h
    injection h with h
    exact ⟨e, List.mem_of_find?_eq_some hf, h⟩

/-- The message of the range error of `Atoi` on a string of digits. -/
theorem rangeError_message (s : String) (hd : ∀ c ∈ s.data, isDigit c = true) :
    (Error.numError "Atoi" s ErrRange).message
      = "strconv.Atoi: parsing \"" ++ s ++ "\": value out of range" := by
  have hq : ∀ l : List Char, (∀ c ∈ l, isDigit c = true) → l.flatMap quoteRune = l := by
    intro l
    induction l with
    | nil => intro _; rfl
    | cons c t ih =>
      intro h
      have hc : isDigit c = true := h c (List.mem_cons_self _ _)
      simp only [isDigit, decide_eq_true_eq] at hc
      have hne : ∀ d : Char, (d.toNat < 48 ∨ 57 < d.toNat) → ¬ (c = d) := by
        intro d hdd hcd
        rw [hcd] at hc
        omega
      have hp : isPrint c = true := by
        unfold isPrint
        rw [if_pos (by omega)]
        simp only [decide_eq_true_eq]
        omega
      have q : quoteRune c = [c] := by
        unfold quoteRune
        rw [if_neg (by
          intro hor
          rcases hor with e | e
          · exact hne _ (by decide) e
          · exact hne _ (by decide) e), if_pos hp]
      rw [List.flatMap_cons, q, ih (fun x hx => h x (List.mem_cons_of_mem _ hx))]
      rfl
  apply String.ext
  simp only [Error.message, Quote, ErrRange, errorsNew, String.data_append, hq s.data hd]
  simp

/-- A variable captured by the router parses, or overflows the `int` range. -/
theorem getInputValue_captured (vars : Vars)
    (hcap : ∀ e ∈ vars, e.2.data ≠ [] ∧ ∀ c ∈ e.2.data, isDigit c = true) (key : String) :
    (∃ n : Int, getInputValue vars key = .ok n) ∨
    (∃ s : String, s.data ≠ [] ∧ (∀ c ∈ s.data, isDigit c = true) ∧ 2 ^ 63 ≤ decimalValue s ∧
      getInputValue vars key = .error (.numError "Atoi" s ErrRange)) := by
  cases hget : vars.get key with
  | none => exact Or.inl ⟨0, getInputValue_absent vars key hget⟩
  | some s =>
    obtain ⟨e, he, hes⟩ := Vars.get_mem vars key s hget
    obtain ⟨hne, hd⟩ := hcap e he
    rw [hes] at hne hd
    rw [getInputValue_present vars key s hget, Atoi_digits s hne hd]
    by_cases hlt : decimalValue s < 2 ^ 63
    · rw [if_pos hlt]; exact Or.inl ⟨_, rfl⟩
    · rw [if_neg hlt]; exact Or.inr ⟨s, hne, hd, by omega, rfl⟩

/-- The errors `serveImageRequest` can send for variables the router
captured. -/
theorem serveImageRequest_captured (compress : Compressor) (vars : Vars)
    (hcap : ∀ e ∈ vars, e.2.data ≠ [] ∧ ∀ c ∈ e.2.data, isDigit c = true)
    (w : ResponseWriter)
    (hw : serveImageRequest compress ResponseWriter.fresh vars = .response w) :
    w.status = 200 ∨
    ∃ e, w = sendError ResponseWriter.fresh e ∧
      (e = errorInvalidDimension ∨ e = errorsNew "jpeg: image is too large to encode" ∨
        ∃ s : String, s.data ≠ [] ∧ (∀ c ∈ s.data, isDigit c = true) ∧
          2 ^ 63 ≤ decimalValue s ∧ e = .numError "Atoi" s ErrRange) := by
  rcases getInputValue_captured vars hcap "width" with ⟨width, h1⟩ | ⟨s, a1, a2, a3, h1⟩
  · rcases getInputValue_captured vars hcap "height" with ⟨height, h2⟩ | ⟨s, a1, a2, a3, h2⟩
    · rw [serveImageRequest_parsed compress _ vars width height h1 h2] at hw
      cases hg : generateImage width height with
      | error err =>
        rw [hg] at hw
        injection hw with hw
        exact Or.inr ⟨err, hw.symm, Or.inl (generateImage_error_eq width height err hg)⟩
      | panic msg =>
        rw [hg] at hw
        exact absurd hw (by simp)
      | ok img =>
        rw [hg] at hw
        dsimp only at hw
        cases he : jpegEncode compress img imageQuality with
        | error err =>
          rw [he] at hw
          injection hw with hw
          exact Or.inr ⟨err, hw.symm,
            Or.inr (Or.inl (jpegEncode_error compress img imageQuality err he))⟩
        | ok buffer =>
          rw [he] at hw
          dsimp only at hw
          rw [imageResponse_fresh] at hw
          injection hw with hw
          left
          rw [← hw]
    · rw [serveImageRequest_height_error compress _ vars width _ h1 h2] at hw
      injection hw with hw
      exact Or.inr ⟨_, hw.symm, Or.inr (Or.inr ⟨s, a1, a2, a3, rfl⟩)⟩
  · rw [serveImageRequest_width_error compress _ vars _ h1] at hw
    injection hw with hw
    exact Or.inr ⟨_, hw.symm, Or.inr (Or.inr ⟨s, a1, a2, a3, rfl⟩)⟩

/-- C10, as amended: for every request that gets a response, a response that
is not a success is either one the router writes itself, the redirect of a
path that is not in clean form (status 301) or the answer to a method mismatch
(status 405, no body), or an error response of `sendError`, with status 400,
whose message is one of: "page not found", "width and height values must be
positive", the message of the JPEG encoder's error ("jpeg: image is too large
to encode"), or the message of the range error of `strconv.Atoi` for a
captured string of digits whose value exceeds 2^63 - 1. -/
theorem error_message_set (compress : Compressor) (req : Request) (w : ResponseWriter)
    (hresp : ServeHTTP compress req = .response w) (herr : w.status ≠ 200) :
    w = redirectHandler ResponseWriter.fresh (cleanPath req.Path) ∨
    w = methodNotAllowedHandler ResponseWriter.fresh ∨
    ∃ e, w = sendError ResponseWriter.fresh e ∧
      w.status = 400 ∧
      w.body = utf8 ("\x7b\"error\":" ++ jsonString e.message ++ "\x7d") ∧
      (e.message = "page not found" ∨
        e.message = "width and height values must be positive" ∨
        e.message = "jpeg: image is too large to encode" ∨
        ∃ s : String, s.data ≠ [] ∧ (∀ c ∈ s.data, isDigit c = true) ∧
          2 ^ 63 ≤ decimalValue s ∧
          e.message = "strconv.Atoi: parsing \"" ++ s ++ "\": value out of range") := by
  have hshape : ∀ e, w = sendError ResponseWriter.fresh e →
      w.status = 400 ∧ w.body = utf8 ("\x7b\"error\":" ++ jsonString e.message ++ "\x7d") := by
    intro e he
    rw [he, sendError_fresh, jsonMarshal_error]
    exact ⟨rfl, rfl⟩
  by_cases hclean : cleanPath req.Path = req.Path
  · unfold ServeHTTP at hresp
    rw [if_neg (fun h => h hclean)] at hresp
    cases hm : routerMatch routes req false with
    | notFound =>
      rw [hm] at hresp
      injection hresp with hresp
      have hS : w = sendError ResponseWriter.fresh error404 := hresp.symm
      exact Or.inr (Or.inr ⟨error404, hS, (hshape _ hS).1, (hshape _ hS).2, Or.inl rfl⟩)
    | methodMismatch =>
      rw [hm] at hresp
      injection hresp with hresp
      exact Or.inr (Or.inl hresp.symm)
    | found h vars =>
      rw [hm] at hresp
      cases h with
      | serveMainPageRequest =>
        injection hresp with hresp
        exfalso
        apply herr
        rw [← hresp]
        simp [serveMainPageRequest, ResponseWriter.fresh, ResponseWriter.Write,
          ResponseWriter.WriteHeader]
      | serveImageRequest =>
        dsimp only at hresp
        obtain ⟨r, _, hr, _⟩ := routerMatch_found routes req false _ vars hm
        have hcap := matchTemplate_captures r.template req.Path.data vars hr
        rcases serveImageRequest_captured compress vars hcap w hresp with
          h200 | ⟨e, he, hwhich⟩
        · exact absurd h200 herr
        · refine Or.inr (Or.inr ⟨e, he, (hshape e he).1, (hshape e he).2, ?_⟩)
          rcases hwhich with h1 | h1 | ⟨s, hne, hd, hge, h1⟩
          · rw [h1]; exact Or.inr (Or.inl rfl)
          · rw [h1]; exact Or.inr (Or.inr (Or.inl rfl))
          · rw [h1]
            exact Or.inr (Or.inr (Or.inr ⟨s, hne, hd, hge, rangeError_message s hd⟩))
  · rw [ServeHTTP_unclean compress req hclean] at hresp
    injection hresp with hresp
    exact Or.inl hresp.symm

/-- Witness of C10 as amended: the request `GET /0`. -/
theorem error_message_set_witness :
    sendError ResponseWriter.fresh errorInvalidDimension
        = redirectHandler ResponseWriter.fresh (cleanPath "/0") ∨
    sendError ResponseWriter.fresh errorInvalidDimension
        = methodNotAllowedHandler ResponseWriter.fresh ∨
    ∃ e, sendError ResponseWriter.fresh errorInvalidDimension = sendError ResponseWriter.fresh e ∧
      (sendError ResponseWriter.fresh errorInvalidDimension).status = 400 ∧
      (sendError ResponseWriter.fresh errorInvalidDimension).body
        = utf8 ("\x7b\"error\":" ++ jsonString e.message ++ "\x7d") ∧
      (e.message = "page not found" ∨
        e.message = "width and height values must be positive" ∨
        e.message = "jpeg: image is too large to encode" ∨
        ∃ s : String, s.data ≠ [] ∧ (∀ c ∈ s.data, isDigit c = true) ∧
          2 ^ 63 ≤ decimalValue s ∧
          e.message = "strconv.Atoi: parsing \"" ++ s ++ "\": value out of range") :=
  error_message_set (fun _ _ => []) ⟨"GET", "/0"⟩
    (sendError ResponseWriter.fresh errorInvalidDimension) (by decide) (by decide)

/-- Counterexample to C10 as stated: the response to
`GET /9223372036854775808` is an error response whose message is none of
"page not found", "width and height values must be positive" and the message
of the encoder's error: it is the range error of `strconv.Atoi`. -/
theorem error_message_atoi_range :
    ServeHTTP (fun _ _ => []) ⟨"GET", "/9223372036854775808"⟩ =
      .response
        { header := [("Content-Type", "application/json")], wroteHeader := true, status := 400,
          sent := [("Content-Type", "application/json")],
          body := utf8 ("\x7b\"error\":" ++ jsonString
            "strconv.Atoi: parsing \"9223372036854775808\": value out of range" ++ "\x7d") } ∧
    "strconv.Atoi: parsing \"9223372036854775808\": value out of range" ≠ "page not found" ∧
    "strconv.Atoi: parsing \"9223372036854775808\": value out of range"
      ≠ "width and height values must be positive" ∧
    "strconv.Atoi: parsing \"9223372036854775808\": value out of range"
      ≠ "jpeg: image is too large to encode" ∧
    (∀ (m : RGBA) (q : Int) (e : Error), jpegEncode (fun _ _ => []) m q = .error e →
      e.message ≠ "strconv.Atoi: parsing \"9223372036854775808\": value out of range") := by
  refine ⟨by decide, by decide, by decide, by decide, ?_⟩
  intro m q e he
  rw [jpegEncode_error _ m q e he]
  decide

end Placer
